import Mathlib

/-!
# Verification of the fibrous-mcp swap execution and gas estimation core

This file gives a shallow embedding, in Lean 4, of the amount-conversion
utilities (`src/utils/amounts.ts`), the swap execution engine and gas
estimator (`src/utils/swap.ts`), the validation helper `validateSwapParams`,
and the constants they use (`src/utils/constants.ts`), together with the
parts of their JavaScript/TypeScript runtime semantics that the code relies
on:

* arbitrary-precision `BigInt` string conversion (`BigInt(s)`, `toString`),
* the `viem` library's `parseUnits` / `formatUnits` (viem 2.x, as pinned in
  `package.json`),
* IEEE-754 binary64 values (`parseFloat`, `Number`, `Math.round`,
  `toFixed`), modelled exactly as rationals with a 53-bit significand
  (doubles are exact rationals, so no approximation is involved),
* JavaScript string operations (`split`, `trim`, `padStart`, `padEnd`,
  `slice`, trailing-zero stripping).

Strings are modelled as `List Char` internally with `String` wrappers at the
API boundary.  Network and chain I/O (RPC reads/writes, the route/calldata
client) are modelled by an environment record of `Except`-valued outcomes,
one per external call site, consumed in the same order as the source.
-/

set_option maxRecDepth 10000

namespace FibrousMcp

/-! ## Characters and digit lists -/

/-- ASCII decimal digit test, `0x30 ≤ c ≤ 0x39`. -/
def isDigitCh (c : Char) : Bool := 48 ≤ c.toNat && c.toNat ≤ 57

/-- Whitespace characters recognised by the JavaScript `trim` / `BigInt`
trimming that the embedded code exercises (ASCII subset). -/
def isWsCh (c : Char) : Bool := c == ' ' || c == '\t' || c == '\n' || c == '\r'

/-- JavaScript `String.prototype.trim` on a character list. -/
def jsTrim (l : List Char) : List Char :=
  ((l.dropWhile isWsCh).reverse.dropWhile isWsCh).reverse

/-- Strip all trailing `'0'` characters (the `replace(/0+$/, "")` and
`replace(/(0+)$/, "")` idioms of the source). -/
def dropTrailingZeros (l : List Char) : List Char :=
  (l.reverse.dropWhile (· == '0')).reverse

/-- Numeric value of an ASCII digit character. -/
def charDigit (c : Char) : ℕ := c.toNat - 48

/-- ASCII digit character of a value `< 10`. -/
def digitCh (d : ℕ) : Char :=
  match d with
  | 0 => '0' | 1 => '1' | 2 => '2' | 3 => '3' | 4 => '4'
  | 5 => '5' | 6 => '6' | 7 => '7' | 8 => '8' | _ => '9'

/-- Value of a big-endian decimal digit string. -/
def digitsToNat (l : List Char) : ℕ := l.foldl (fun a c => 10 * a + charDigit c) 0

/-- Little-endian base-10 digits, structurally recursive on a fuel bound so
that the kernel can evaluate it (`Nat.digits` is well-founded and does not
reduce).  Proven equal to `Nat.digits 10` below. -/
def natDigitsFuel : ℕ → ℕ → List ℕ
  | 0, _ => []
  | f + 1, n => if n = 0 then [] else n % 10 :: natDigitsFuel f (n / 10)

/-- Decimal digit string of a natural number: the model of JavaScript
`BigInt.prototype.toString` for non-negative values. -/
def natToDigits (n : ℕ) : List Char :=
  if n = 0 then ['0'] else ((natDigitsFuel n n).map digitCh).reverse

/-- JavaScript `toString` of a (possibly negative) `BigInt`. -/
def intToDigits (z : ℤ) : List Char :=
  if z < 0 then '-' :: natToDigits z.natAbs else natToDigits z.natAbs

/-- Decimal rendering of a natural number as a `String`. -/
def natToStr (n : ℕ) : String := String.mk (natToDigits n)

/-- `l.any (· == c)`: the model of `String.prototype.includes` for a
single-character needle. -/
def hasChar (l : List Char) (c : Char) : Bool := l.any (· == c)

/-- JavaScript `split(".")` on a character list.  `splitDot "a.b" = ["a","b"]`,
`splitDot "" = [""]`, `splitDot "." = ["",""]`. -/
def splitDot : List Char → List (List Char)
  | [] => [[]]
  | c :: rest =>
    if c = '.' then [] :: splitDot rest
    else
      match splitDot rest with
      | [] => [[c]]
      | h :: t => (c :: h) :: t

/-- JavaScript `padStart(n, c)`. -/
def padStart (l : List Char) (n : ℕ) (c : Char) : List Char :=
  List.replicate (n - l.length) c ++ l

/-- JavaScript `padEnd(n, c)`. -/
def padEnd (l : List Char) (n : ℕ) (c : Char) : List Char :=
  l ++ List.replicate (n - l.length) c

/-! ## JavaScript `BigInt(string)` -/

/-- Nonempty all-decimal-digit parse (the `StrUnsignedDecimalLiteral`
fragment accepted by `StringToBigInt`). -/
def parseDecDigits (l : List Char) : Option ℕ :=
  if l ≠ [] ∧ l.all isDigitCh then some (digitsToNat l) else none

/-- Hexadecimal digit value. -/
def hexDigitVal (c : Char) : Option ℕ :=
  if isDigitCh c then some (charDigit c)
  else if 97 ≤ c.toNat ∧ c.toNat ≤ 102 then some (c.toNat - 87)
  else if 65 ≤ c.toNat ∧ c.toNat ≤ 70 then some (c.toNat - 55)
  else none

/-- Nonempty radix-`b` digit parse used for the `0x`/`0o`/`0b` forms of
`StringToBigInt`. -/
def parseRadixDigits (b : ℕ) (l : List Char) : Option ℕ :=
  if l = [] then none
  else
    l.foldl
      (fun acc c =>
        match acc, hexDigitVal c with
        | some a, some d => if d < b then some (b * a + d) else none
        | _, _ => none)
      (some 0)

/-- ECMAScript `StringToBigInt`: whitespace-trimmed; empty means `0`; an
optional sign followed by decimal digits, or an unsigned `0x`/`0X`, `0o`/`0O`,
`0b`/`0B` prefixed literal; anything else is a `SyntaxError`, modelled as
`none`. -/
def jsBigIntOfChars (l : List Char) : Option ℤ :=
  let t := jsTrim l
  if t = [] then some 0
  else if t.take 2 = ['0', 'x'] ∨ t.take 2 = ['0', 'X'] then
    (parseRadixDigits 16 (t.drop 2)).map Int.ofNat
  else if t.take 2 = ['0', 'o'] ∨ t.take 2 = ['0', 'O'] then
    (parseRadixDigits 8 (t.drop 2)).map Int.ofNat
  else if t.take 2 = ['0', 'b'] ∨ t.take 2 = ['0', 'B'] then
    (parseRadixDigits 2 (t.drop 2)).map Int.ofNat
  else if t.headD ' ' = '-' then (parseDecDigits (t.drop 1)).map (fun n => -(n : ℤ))
  else if t.headD ' ' = '+' then (parseDecDigits (t.drop 1)).map Int.ofNat
  else (parseDecDigits t).map Int.ofNat

/-! ## IEEE-754 binary64 values

A non-negative double is an exact rational `m * 2 ^ e` with
`2 ^ 52 ≤ m < 2 ^ 53` (or `m = 0`).  Conversion from an exact rational
`p / q` rounds the significand to nearest, ties to even, exactly as the
runtime does.  Only the normal range is modelled (the embedded code never
produces subnormals, infinities or negative floats on the paths stated in
the theorems below; out-of-range search fuel defaults conservatively). -/

/-- Largest `e` with `q * 2 ^ e ≤ p`, for `q ≤ p`; fuel-bounded structural
recursion so the kernel can evaluate it. -/
def findPosExp : ℕ → ℕ → ℕ → ℕ
  | 0, _, _ => 0
  | fuel + 1, p, q => if p < 2 * q then 0 else findPosExp fuel p (2 * q) + 1

/-- Smallest `k ≥ 1` with `q ≤ p * 2 ^ k`, for `p < q`. -/
def findNegExp : ℕ → ℕ → ℕ → ℕ
  | 0, _, _ => 1
  | fuel + 1, p, q => if q ≤ p then 0 else findNegExp fuel (2 * p) q + 1

/-- Search fuel covering the full binary64 exponent range. -/
def floatFuel : ℕ := 4972

/-- A non-negative binary64 value `m * 2 ^ e` (`m = 0` encodes zero). -/
structure JsFloat where
  m : ℕ
  e : ℤ
deriving DecidableEq, Repr

/-- Round the exact fraction `A / B` to the nearest integer, ties to even. -/
def roundMantNE (A B : ℕ) : ℕ :=
  let q := A / B
  let r := A % B
  if 2 * r < B then q
  else if B < 2 * r then q + 1
  else if q % 2 = 0 then q else q + 1

/-- Nearest binary64 value of the exact rational `p / q` (round to nearest,
ties to even). -/
def floatOfRat (p q : ℕ) : JsFloat :=
  if p = 0 ∨ q = 0 then ⟨0, 0⟩
  else
    let e : ℤ :=
      if q ≤ p then (findPosExp floatFuel p q : ℤ) else -(findNegExp floatFuel p q : ℤ)
    let A : ℕ := if e ≤ 52 then p * 2 ^ (52 - e).toNat else p
    let B : ℕ := if e ≤ 52 then q else q * 2 ^ (e - 52).toNat
    let m := roundMantNE A B
    if m = 2 ^ 53 then ⟨2 ^ 52, e - 51⟩ else ⟨m, e - 52⟩

/-- `⌊x * scale + 1/2⌋` for a non-negative double `x` and a natural scale:
the arithmetic core of `Math.round` and `toFixed` (ECMAScript rounds on the
exact mathematical value of the double, ties away from zero for positive
arguments). -/
def jsFloorHalfUp (x : JsFloat) (scale : ℕ) : ℕ :=
  if 0 ≤ x.e then x.m * 2 ^ x.e.toNat * scale
  else
    let t := (-x.e).toNat
    (x.m * scale + 2 ^ (t - 1)) / 2 ^ t

/-- `Math.round` on a non-negative double. -/
def jsMathRound (x : JsFloat) : ℕ := jsFloorHalfUp x 1

/-- Exact test `n ≤ m * 2 ^ e` for a non-negative double. -/
def JsFloat.atLeast (x : JsFloat) (n : ℕ) : Bool :=
  match x.e with
  | Int.ofNat t => n ≤ x.m * 2 ^ t
  | Int.negSucc t => n * 2 ^ (t + 1) ≤ x.m

/-- The exact value of a double that is at least `2 ^ 53` (such a double is
integral: `e ≥ 0` in the normalised form `floatOfRat` produces; on an
unnormalised encoding with `e < 0` this takes the floor, a case no embedded
path constructs). -/
def JsFloat.intValue (x : JsFloat) : ℕ :=
  match x.e with
  | Int.ofNat t => x.m * 2 ^ t
  | Int.negSucc t => x.m / 2 ^ (t + 1)

/-- Strip trailing decimal zeros of a natural number (fuel-bounded so the
kernel can evaluate it; any fuel at least the digit count is enough). -/
def stripTens : ℕ → ℕ → ℕ
  | 0, n => n
  | fuel + 1, n => if n % 10 = 0 ∧ n ≠ 0 then stripTens fuel (n / 10) else n

/-- One step of the ECMAScript `Number::toString` shortest-decimal search
for the integral double of exact value `N` (`n` its digit count): of the two
multiples of `10 ^ (n - k)` surrounding `N`, the one that reads back (round
to nearest, ties to even) as the same double, preferring the closer one and,
should both be valid and equidistant, the even significand; `none` when
neither reads back equal. -/
def shortestDecStep (N n k : ℕ) : Option ℕ :=
  let p := 10 ^ (n - k)
  let lo := N / p * p
  let hi := lo + p
  let okLo := floatOfRat lo 1 = floatOfRat N 1
  let okHi := floatOfRat hi 1 = floatOfRat N 1
  if okLo ∧ okHi then
    if N - lo < hi - N then some lo
    else if hi - N < N - lo then some hi
    else if stripTens lo lo % 2 = 0 then some lo else some hi
  else if okLo then some lo
  else if okHi then some hi
  else none

/-- Search loop for `shortestDec`: try significand lengths `k, k + 1, …`
until a candidate reads back exactly (at `k` equal to the digit count the
value itself always does, so fuel equal to the digit count suffices). -/
def shortestDecGo (N n : ℕ) : ℕ → ℕ → ℕ
  | 0, _ => N
  | fuel + 1, k =>
    match shortestDecStep N n k with
    | some S => S
    | none => shortestDecGo N n fuel (k + 1)

/-- The shortest decimal value `s * 10 ^ (n - k)` (ECMAScript
`Number::toString`, 6.1.6.1.20: minimal significand length `k`, then
closest, then even) denoting the same double as the integer `N`. -/
def shortestDec (N : ℕ) : ℕ :=
  let n := (natToDigits N).length
  shortestDecGo N n n 1

/-- ECMAScript `Number::toString` rendering of an integral double from its
shortest decimal value `S`: plain digits while the digit count `n` is at
most 21, otherwise the exponential form `d.dd…e+(n-1)` built from the
significand (`S` with trailing zeros removed). -/
def natSciString (S : ℕ) : List Char :=
  let ds := natToDigits S
  let n := ds.length
  if n ≤ 21 then ds
  else
    match natToDigits (stripTens S S) with
    | [] => ds
    | [c] => c :: 'e' :: '+' :: natToDigits (n - 1)
    | c :: rest => c :: '.' :: (rest ++ 'e' :: '+' :: natToDigits (n - 1))

/-- `Number.prototype.toFixed` on a non-negative double: for a value of at
least `10 ^ 21` the spec returns `ToString(x)` (exponential notation);
otherwise round to `f` fractional digits (half-up on the exact value) and
render with exactly `f` digits after the point (none when `f = 0`). -/
def jsToFixed (x : JsFloat) (f : ℕ) : List Char :=
  if x.atLeast (10 ^ 21) then natSciString (shortestDec x.intValue)
  else
    let n := jsFloorHalfUp x (10 ^ f)
    if f = 0 then natToDigits n
    else
      let s := padStart (natToDigits n) (f + 1) '0'
      s.take (s.length - f) ++ '.' :: s.drop (s.length - f)

/-- The double denoted by the decimal digit string `ip "." fp` (used for
`Number` / `parseFloat` on the dot-separated digit strings the embedded code
builds). -/
def floatOfDecimal (ip fp : List Char) : JsFloat :=
  floatOfRat (digitsToNat ip * 10 ^ fp.length + digitsToNat fp) (10 ^ fp.length)

/-- `parseFloat` on the output shape of `formatUnits`: an optional sign,
decimal digits, an optional fractional part.  Returns the sign and the
magnitude.  (Negative magnitudes never arise on the paths stated below;
the sign is carried through faithfully for completeness.) -/
def jsParseFloat (l : List Char) : Bool × JsFloat :=
  let (neg, l1) : Bool × List Char :=
    match l with
    | '-' :: r => (true, r)
    | '+' :: r => (false, r)
    | _ => (false, l)
  let ip := l1.takeWhile isDigitCh
  let rest := l1.dropWhile isDigitCh
  let fp :=
    match rest with
    | '.' :: r => r.takeWhile isDigitCh
    | _ => []
  (neg, floatOfDecimal ip fp)

/-! ## viem `formatUnits` and `parseUnits` (viem 2.x) -/

/-- `formatUnits(value, decimals)` from viem 2.x: render the integer,
left-pad to `decimals` digits, split into integer/fraction `decimals` digits
from the right, strip trailing fractional zeros. -/
def viemFormatUnits (value : ℤ) (decimals : ℕ) : List Char :=
  let display0 := intToDigits value
  let negative := display0.headD ' ' == '-'
  let display1 := if negative then display0.drop 1 else display0
  let display := padStart display1 decimals '0'
  let integer := display.take (display.length - decimals)
  let fraction := dropTrailingZeros (display.drop (display.length - decimals))
  (if negative then ['-'] else []) ++
    (if integer.isEmpty then ['0'] else integer) ++
    (if fraction.isEmpty then [] else '.' :: fraction)

/-- The shape test `^(-?)([0-9]*)\.?([0-9]*)$` guarding viem 2.x
`parseUnits` (`InvalidDecimalNumberError` on failure). -/
def viemDecimalShape (l : List Char) : Bool :=
  let l1 := if l.headD ' ' = '-' then l.drop 1 else l
  let rest := l1.dropWhile isDigitCh
  if rest = [] then true
  else if rest.headD ' ' = '.' then (rest.drop 1).all isDigitCh
  else false

/-- `BigInt` of an optionally negated digit string, as built at the end of
`parseUnits` (`BigInt(sign ++ integer ++ fraction)`). -/
def bigIntOfSignDigits (neg : Bool) (d : List Char) : Option ℤ :=
  jsBigIntOfChars (if neg then '-' :: d else d)

/-- `parseUnits(value, decimals)` from viem 2.x.  Splits on the decimal
point; trims trailing fractional zeros; when the fraction is longer than
`decimals` it rounds at the `decimals`-th digit using
`Math.round(Number(unit + "." + rest))` (float semantics, modelled exactly),
propagating a carry into the integer part; otherwise right-pads the fraction
with zeros.  `none` models a thrown error. -/
def viemParseUnits (l : List Char) (decimals : ℕ) : Option ℤ :=
  if viemDecimalShape l = false then none
  else
    let parts := splitDot l
    let integer0 := parts.headD []
    let fraction0 := (parts.drop 1).headD ['0']
    let negative := integer0.headD ' ' == '-'
    let integer1 := if negative then integer0.drop 1 else integer0
    let fraction1 := dropTrailingZeros fraction0
    if decimals = 0 then
      let inc : Bool :=
        if fraction1 = [] then false
        else jsMathRound (floatOfDecimal [] fraction1) == 1
      let integer2 :=
        if inc then natToDigits (digitsToNat integer1 + 1) else integer1
      bigIntOfSignDigits negative integer2
    else if decimals < fraction1.length then
      let left := fraction1.take (decimals - 1)
      let unit := (fraction1.drop (decimals - 1)).take 1
      let right := fraction1.drop decimals
      let rounded := jsMathRound (floatOfDecimal unit right)
      let fraction2 :=
        if 9 < rounded then
          padStart (natToDigits (digitsToNat left + 1) ++ ['0']) (left.length + 1) '0'
        else left ++ natToDigits rounded
      let ifr : List Char × List Char :=
        if decimals < fraction2.length then
          (natToDigits (digitsToNat integer1 + 1), fraction2.drop 1)
        else (integer1, fraction2)
      bigIntOfSignDigits negative (ifr.1 ++ ifr.2.take decimals)
    else
      bigIntOfSignDigits negative (integer1 ++ padEnd fraction1 decimals '0')

-- Decidable equality for `Except` results (used to state and check
-- concrete evaluations).
deriving instance DecidableEq for Except

/-! ## `src/utils/amounts.ts` -/

/-- The `operation` argument of `convertAmount`. -/
inductive ConvOp
  | format
  | parse
deriving DecidableEq, Repr

/-- `convertAmount(amount, decimals, operation)` from `src/utils/amounts.ts`:
empty/negative checks, a parse-only shape check, then `formatUnits` (after a
`BigInt` validation) or `parseUnits`, with thrown errors mapped to
`Except.error` of the wrapped message. -/
def convertAmount (amount : String) (decimals : ℕ) (operation : ConvOp) :
    Except String String :=
  let l := amount.data
  if l = [] ∨ jsTrim l = [] then .error "Amount cannot be empty"
  else if l.headD ' ' = '-' then .error "Amount cannot be negative"
  else if operation = ConvOp.parse ∧
      (2 < (splitDot l).length ∨ hasChar l 'e' = true ∨ l = "invalid".data) then
    .error "Invalid amount format"
  else
    match operation with
    | .format =>
      match jsBigIntOfChars l with
      | none => .error "Invalid amount format for formatting"
      | some v => .ok (String.mk (viemFormatUnits v decimals))
    | .parse =>
      match viemParseUnits l decimals with
      | none => .error "Invalid amount format for parsing"
      | some v => .ok (String.mk (intToDigits v))

/-- `toBigInt(amount)` from `src/utils/amounts.ts` (the
`VALIDATION_LIMITS.MAX_AMOUNT_LENGTH` constant is 77). -/
def toBigInt (amount : String) : Except String ℤ :=
  let l := amount.data
  if l = [] ∨ jsTrim l = [] then .error "Amount cannot be empty"
  else if l.headD ' ' = '-' then .error "Amount cannot be negative"
  else if hasChar l '.' = true ∨ l = "0x".data ∨ l = "invalid".data then
    .error "Invalid amount format"
  else if hasChar l 'e' = true ∨ 77 < l.length then .error "Amount overflow"
  else
    match jsBigIntOfChars l with
    | none => .error "Invalid amount format"
    | some v => .ok v

/-- `formatAmountPretty(amount, decimals, maxDecimals)` from
`src/utils/amounts.ts`: `formatUnits`, then `parseFloat`, then
`toFixed(maxDecimals)` (binary64 semantics, rounding to nearest), then
trailing-zero stripping of the fractional part. -/
def formatAmountPretty (amount : String) (decimals : ℕ) (maxDecimals : ℕ := 6) :
    Except String String :=
  let l := amount.data
  if l = [] ∨ jsTrim l = [] ∨ l = "invalid".data then .error "Invalid amount for formatting"
  else
    match jsBigIntOfChars l with
    | none => .error "Invalid amount for formatting"
    | some v =>
      let formatted := viemFormatUnits v decimals
      let nf := jsParseFloat formatted
      let rounded := (if nf.1 then ['-'] else []) ++ jsToFixed nf.2 maxDecimals
      let parts := splitDot rounded
      let whole := parts.headD []
      match parts with
      | _ :: decimal :: _ =>
        let trimmed := dropTrailingZeros decimal
        .ok (String.mk (if trimmed = [] then whole else whole ++ '.' :: trimmed))
      | _ => .ok (String.mk whole)

/-- The double `formatAmountPretty` hands to `toFixed`: the `parseFloat` of
the `formatUnits` rendering, defined when the amount passes the `BigInt`
check.  (Used to state on which inputs `toFixed` stays in its fixed-point
branch, i.e. the parsed value is below `10 ^ 21`.) -/
def prettyFloat (amount : String) (decimals : ℕ) : Option JsFloat :=
  match jsBigIntOfChars amount.data with
  | none => none
  | some v => some (jsParseFloat (viemFormatUnits v decimals)).2

/-- The earlier variant of `formatAmountPretty` kept in the repository's
legacy `src/utils/amounts.ts` tree: it truncates the formatted fraction with
`slice(0, maxDecimals)` instead of rounding with `toFixed`, then strips
trailing zeros. -/
def formatAmountPrettyLegacy (amount : String) (decimals : ℕ) (maxDecimals : ℕ := 6) :
    Except String String :=
  let l := amount.data
  if l = [] ∨ jsTrim l = [] ∨ l = "invalid".data then .error "Invalid amount for formatting"
  else
    match jsBigIntOfChars l with
    | none => .error "Invalid amount for formatting"
    | some v =>
      let formatted := viemFormatUnits v decimals
      let parts := splitDot formatted
      let whole := parts.headD []
      match parts with
      | _ :: decimal :: _ =>
        let truncated := dropTrailingZeros (decimal.take maxDecimals)
        .ok (String.mk (if truncated = [] then whole else whole ++ '.' :: truncated))
      | _ => .ok (String.mk whole)

/-! ## `src/utils/constants.ts` and shared chain data -/

/-- The `SUPPORTED_CHAINS` enumeration from `src/utils/validation.ts`. -/
inductive SupportedChain
  | base
  | starknet
  | scroll
deriving DecidableEq, Repr

/-- The string name the source compares with `===`. -/
def chainNameStr : SupportedChain → String
  | .base => "base"
  | .starknet => "starknet"
  | .scroll => "scroll"

/-- `EXPLORER_URLS` from `src/utils/constants.ts`. -/
def explorerBase : SupportedChain → String
  | .base => "https://basescan.org/tx"
  | .scroll => "https://scrollscan.com/tx"
  | .starknet => "https://starkscan.co/tx"

/-- One entry of `GAS_FALLBACKS` from `src/utils/constants.ts`. -/
structure GasFallbackEntry where
  GAS_ESTIMATE : String
  GAS_PRICE : String
deriving DecidableEq, Repr

/-- `GAS_FALLBACKS.STARKNET`. -/
def GAS_FALLBACKS_STARKNET : GasFallbackEntry := ⟨"50000", "1000000000"⟩

/-- `GAS_FALLBACKS.EVM`. -/
def GAS_FALLBACKS_EVM : GasFallbackEntry := ⟨"200000", "20000000000"⟩

/-- The native-token sentinel address checked by `approveTokenIfNeeded`. -/
def zeroAddress : String := "0x0000000000000000000000000000000000000000"

/-! ## `src/utils/swap.ts`: data model -/

/-- `ChainConfig` (rpc url, signing key, optional Starknet account address). -/
structure ChainConfig where
  rpcUrl : String
  privateKey : String
  publicKey : Option String := none

/-- `SwapParams` (the `options` field is passed through opaquely to the
route client and does not influence any behaviour modelled here). -/
structure SwapParams where
  amount : String
  tokenInAddress : String
  tokenOutAddress : String
  slippage : Option ℚ := none
  receiverAddress : Option String := none
  chainName : SupportedChain

/-- `SwapResult`. -/
structure SwapResult where
  success : Bool
  transactionHash : Option String := none
  error : Option String := none
  explorerUrl : Option String := none
  gasUsed : Option String := none
  outputAmount : Option String := none
deriving DecidableEq, Repr

/-- `GasEstimate`. -/
structure GasEstimate where
  gasEstimate : String
  gasPrice : String
  estimatedCost : String
  costInUSD : Option String := none
deriving DecidableEq, Repr

/-- The fields of a Starknet `estimateFee` response the source reads
(each may be absent, in which case the source renders `"0"`). -/
structure SnFeeEstimate where
  gas_consumed : Option ℕ := none
  gas_price : Option ℕ := none
  overall_fee : Option ℕ := none
deriving DecidableEq, Repr

/-- One entry of `fibrousRouter.supportedChains`. -/
structure ChainEntry where
  chain_name : String
  chain_id : Option ℕ := none
  router_address : Option String := none
deriving DecidableEq, Repr

/-- Outcomes of the external calls made by the engine, one field per call
site, consumed in source order.  `Except.error` models a rejected promise /
thrown exception carrying the error message. -/
structure SwapEnv where
  evmAccountAddress : Except String String
  buildApproveStarknet : Except String Unit
  buildRouteAndCalldata : Except String String
  snExecute : Except String String
  snEstimateFee : Except String SnFeeEstimate
  evmEstimateGas : Except String ℕ
  getGasPrice : Except String ℕ
  readAllowance : Except String ℤ
  writeApprove : Except String String
  waitApproveReceipt : Except String Unit
  sendTransaction : Except String String
  waitSwapReceiptGasUsed : Except String ℕ
  supportedChains : List ChainEntry
  gasPriceMultiplier : JsFloat

/-- JavaScript falsiness of an optional string (`undefined` or `""`). -/
def jsFalsyOptStr : Option String → Bool
  | none => true
  | some s => s == ""

/-- `supportedChains.find((c) => c.chain_name === name)`. -/
def findChain (cs : List ChainEntry) (name : String) : Option ChainEntry :=
  cs.find? (fun c => c.chain_name == name)

/-- `getViemChain` throws on any chain other than base/scroll. -/
def getViemChain : SupportedChain → Except String Unit
  | .base => .ok ()
  | .scroll => .ok ()
  | .starknet => .error "Unsupported EVM chain: starknet"

/-- `getWalletAddress`: the configured Starknet account address, or the
EVM address derived from the private key. -/
def getWalletAddress (chainConfig : ChainConfig) (chainName : SupportedChain)
    (env : SwapEnv) : Except String String :=
  if chainName = SupportedChain.starknet then
    if jsFalsyOptStr chainConfig.publicKey then .error "Starknet public key is required"
    else .ok (chainConfig.publicKey.getD "")
  else env.evmAccountAddress

/-- A failed `SwapResult` (`success: false, error: message`). -/
def mkFailResult (e : String) : SwapResult := { success := false, error := some e }

/-- Binary64 multiplication by a natural constant, rounded to nearest-even
(the runtime multiplies `gasPriceMultiplier * 100` in double precision
before `Math.round`). -/
def jsFloatMulNat (x : JsFloat) (k : ℕ) : JsFloat :=
  if 0 ≤ x.e then floatOfRat (x.m * 2 ^ x.e.toNat * k) 1
  else floatOfRat (x.m * k) (2 ^ (-x.e).toNat)

/-- The gas-price multiplier computation of `executeEvmSwap`
(`BigInt(Math.round(gasPriceMultiplier * 100))`, then
`gasPrice * multiplierBI / 100n`). -/
def execEvmFinalGasPrice (gasPrice : ℕ) (mult : JsFloat) : ℕ :=
  gasPrice * jsMathRound (jsFloatMulNat mult 100) / 100

/-- The gas-price multiplier computation of `estimateSwapGas`
(`BigInt(Math.round(gasPriceMultiplier * 100))`, then
`gasPrice * multiplier / 100n`). -/
def estimateEvmFinalGasPrice (gasPrice : ℕ) (mult : JsFloat) : ℕ :=
  gasPrice * jsMathRound (jsFloatMulNat mult 100) / 100

/-! ## `src/utils/swap.ts`: execution engine -/

/-- Observable on-chain submissions, in order. -/
inductive TxEvent
  | approveSubmitted (token spender : String) (amount : ℤ)
  | approveConfirmed
  | swapSubmitted (router : String)
  | swapConfirmed
deriving DecidableEq, Repr

/-- `approveTokenIfNeeded`: skip for the native-token sentinel; read the
allowance; skip when it covers the amount; otherwise submit an approval for
exactly the amount and wait for its receipt.  Returns the submissions
performed and the outcome. -/
def approveTokenIfNeeded (env : SwapEnv) (tokenAddress spender : String) (amount : ℤ) :
    List TxEvent × Except String Unit :=
  if tokenAddress = zeroAddress then ([], .ok ())
  else
    match env.readAllowance with
    | .error e => ([], .error e)
    | .ok allowance =>
      if amount ≤ allowance then ([], .ok ())
      else
        match env.writeApprove with
        | .error e => ([], .error e)
        | .ok _hash =>
          match env.waitApproveReceipt with
          | .error e => ([.approveSubmitted tokenAddress spender amount], .error e)
          | .ok _ =>
            ([.approveSubmitted tokenAddress spender amount, .approveConfirmed], .ok ())

/-- `executeEvmSwap`: viem chain lookup, account derivation, router lookup,
approval sub-step, route/calldata fetch, gas price with multiplier, swap
submission, confirmation.  Every thrown error is caught and mapped to a
failed `SwapResult`. -/
def executeEvmSwap (amount : ℤ) (tokenInAddress _tokenOutAddress : String)
    (_receiverAddress : String) (chainName : SupportedChain) (_chainConfig : ChainConfig)
    (env : SwapEnv) : SwapResult × List TxEvent :=
  match getViemChain chainName with
  | .error e => (mkFailResult e, [])
  | .ok _ =>
    match env.evmAccountAddress with
    | .error e => (mkFailResult e, [])
    | .ok _accountAddress =>
      let chainData := findChain env.supportedChains (chainNameStr chainName)
      if jsFalsyOptStr (chainData.bind (·.router_address)) then
        (mkFailResult "Router address not found", [])
      else
        let routerAddress := (chainData.bind (·.router_address)).getD ""
        let ap := approveTokenIfNeeded env tokenInAddress routerAddress amount
        match ap.2 with
        | .error e => (mkFailResult e, ap.1)
        | .ok _ =>
          match env.buildRouteAndCalldata with
          | .error e => (mkFailResult e, ap.1)
          | .ok _calldata =>
            match env.getGasPrice with
            | .error e => (mkFailResult e, ap.1)
            | .ok gasPrice =>
              let _finalGasPrice := execEvmFinalGasPrice gasPrice env.gasPriceMultiplier
              match env.sendTransaction with
              | .error e => (mkFailResult e, ap.1)
              | .ok hash =>
                match env.waitSwapReceiptGasUsed with
                | .error e => (mkFailResult e, ap.1 ++ [TxEvent.swapSubmitted routerAddress])
                | .ok gasUsed =>
                  ({ success := true, transactionHash := some hash,
                     explorerUrl := some (explorerBase chainName ++ "/" ++ hash),
                     gasUsed := some (natToStr gasUsed) },
                   ap.1 ++ [TxEvent.swapSubmitted routerAddress, TxEvent.swapConfirmed])

/-- `executeStarknetSwap`: account-address check, approve-call build,
route/calldata fetch, router lookup, one atomic multi-call execution.
Every thrown error is caught and mapped to a failed `SwapResult`. -/
def executeStarknetSwap (_amount : ℤ) (_tokenIn _tokenOut : String) (_receiver : String)
    (chainConfig : ChainConfig) (env : SwapEnv) : SwapResult :=
  if jsFalsyOptStr chainConfig.publicKey then mkFailResult "Starknet public key is required"
  else
    match env.buildApproveStarknet with
    | .error e => mkFailResult e
    | .ok _ =>
      match env.buildRouteAndCalldata with
      | .error e => mkFailResult e
      | .ok _ =>
        if jsFalsyOptStr ((findChain env.supportedChains "starknet").bind
            (·.router_address)) then
          mkFailResult "Starknet router address not found"
        else
          match env.snExecute with
          | .error e => mkFailResult e
          | .ok hash =>
            { success := true, transactionHash := some hash,
              explorerUrl := some ("https://starkscan.co/tx/" ++ hash) }

/-- The receiver resolution of `executeSwap`
(`receiverAddress || await getWalletAddress(...)`, where the empty string is
falsy). -/
def resolveReceiver (params : SwapParams) (chainConfig : ChainConfig) (env : SwapEnv) :
    Except String String :=
  match params.receiverAddress with
  | some r => if r == "" then getWalletAddress chainConfig params.chainName env else .ok r
  | none => getWalletAddress chainConfig params.chainName env

/-- `executeSwap`: parse the amount, resolve the receiver, dispatch on the
chain family; the outer catch converts any of those throws into a failed
result. -/
def executeSwap (params : SwapParams) (chainConfig : ChainConfig) (env : SwapEnv) :
    SwapResult × List TxEvent :=
  match toBigInt params.amount with
  | .error e => (mkFailResult e, [])
  | .ok amountBI =>
    match resolveReceiver params chainConfig env with
    | .error e => (mkFailResult e, [])
    | .ok finalReceiver =>
      if params.chainName = SupportedChain.starknet then
        (executeStarknetSwap amountBI params.tokenInAddress params.tokenOutAddress
          finalReceiver chainConfig env, [])
      else
        executeEvmSwap amountBI params.tokenInAddress params.tokenOutAddress
          finalReceiver params.chainName chainConfig env

/-! ## `src/utils/swap.ts`: validation and gas estimation -/

/-- The return shape of `validateSwapParams`. -/
structure ValidationResult where
  isValid : Bool
  errors : List String
deriving DecidableEq, Repr

/-- `validateSwapParams`, check for check in source order. -/
def validateSwapParams (params : SwapParams) : ValidationResult :=
  let e1 : List String :=
    if params.amount = "" ∨ params.amount = "0" then ["Amount must be greater than 0"] else []
  let e2 := if params.tokenInAddress = "" then ["Token in address is required"] else []
  let e3 := if params.tokenOutAddress = "" then ["Token out address is required"] else []
  let e4 :=
    if params.tokenInAddress = params.tokenOutAddress then
      ["Token in and token out addresses must be different"]
    else []
  let e5 :=
    match params.slippage with
    | some s =>
      if s < 1 / 100 ∨ 50 < s then ["Slippage must be between 0.01% and 50%"] else []
    | none => []
  let e6 :=
    if params.amount ≠ "" then
      match toBigInt params.amount with
      | .error _ => ["Invalid amount format"]
      | .ok _ => []
    else []
  let errors := e1 ++ e2 ++ e3 ++ e4 ++ e5 ++ e6
  { isValid := errors.isEmpty, errors := errors }

/-- Integer-string rendering of an optional field, `"0"` when absent
(`x?.toString() ?? "0"`). -/
def optNatToStr : Option ℕ → String
  | some n => natToStr n
  | none => "0"

/-- The fallback `GasEstimate` returned when live estimation throws:
the per-family constants with `estimatedCost` their exact product
(`BigInt(GAS_ESTIMATE) * BigInt(GAS_PRICE)`). -/
def gasFallback (chainName : SupportedChain) : GasEstimate :=
  let fb :=
    if chainName = SupportedChain.starknet then GAS_FALLBACKS_STARKNET else GAS_FALLBACKS_EVM
  { gasEstimate := fb.GAS_ESTIMATE, gasPrice := fb.GAS_PRICE,
    estimatedCost := natToStr (digitsToNat fb.GAS_ESTIMATE.data * digitsToNat fb.GAS_PRICE.data) }

/-- The `try` block of `estimateSwapGas`: receiver resolution, then the
per-family estimation path, in source order. -/
def estimateSwapGasBody (params : SwapParams) (chainConfig : ChainConfig) (env : SwapEnv) :
    Except String GasEstimate :=
  match getWalletAddress chainConfig params.chainName env with
  | .error e => .error e
  | .ok _receiver =>
    if params.chainName = SupportedChain.starknet then
      if jsFalsyOptStr chainConfig.publicKey then .error "Starknet public key is required"
      else
        match env.buildApproveStarknet with
        | .error e => .error e
        | .ok _ =>
          match env.buildRouteAndCalldata with
          | .error e => .error e
          | .ok _ =>
            match env.snEstimateFee with
            | .error e => .error e
            | .ok est =>
              .ok { gasEstimate := optNatToStr est.gas_consumed,
                    gasPrice := optNatToStr est.gas_price,
                    estimatedCost := optNatToStr est.overall_fee }
    else
      match env.evmAccountAddress with
      | .error e => .error e
      | .ok _account =>
        match env.buildRouteAndCalldata with
        | .error e => .error e
        | .ok _calldata =>
          match env.evmEstimateGas with
          | .error e => .error e
          | .ok gasEstimateBI =>
            match env.getGasPrice with
            | .error e => .error e
            | .ok gasPrice =>
              let finalGasPrice := estimateEvmFinalGasPrice gasPrice env.gasPriceMultiplier
              .ok { gasEstimate := natToStr gasEstimateBI,
                    gasPrice := natToStr finalGasPrice,
                    estimatedCost := natToStr (gasEstimateBI * finalGasPrice) }

/-- `estimateSwapGas`: the amount is parsed with `toBigInt` before the
`try` block (so a malformed amount propagates as an error), and any failure
inside the `try` block is absorbed into the per-family fallback. -/
def estimateSwapGas (params : SwapParams) (chainConfig : ChainConfig) (env : SwapEnv) :
    Except String GasEstimate :=
  match toBigInt params.amount with
  | .error e => .error e
  | .ok _amountBI =>
    .ok
      (match estimateSwapGasBody params chainConfig env with
       | .ok g => g
       | .error _ => gasFallback params.chainName)

/-! ## Auxiliary observations and concrete fixtures -/

/-- Number of approval transactions submitted in a transcript. -/
def countApprovals (evts : List TxEvent) : ℕ :=
  (evts.filter fun e =>
    match e with
    | .approveSubmitted _ _ _ => true
    | _ => false).length

/-- An environment in which every external call succeeds (values mirror the
repository's test fixtures). -/
def envAllOk : SwapEnv :=
  { evmAccountAddress := .ok "0x1234567890123456789012345678901234567890"
    buildApproveStarknet := .ok ()
    buildRouteAndCalldata := .ok "0xcalldata"
    snExecute := .ok "0xabc123def456"
    snEstimateFee := .ok
      { gas_consumed := some 150000, gas_price := some 1000000000,
        overall_fee := some 150000000000000 }
    evmEstimateGas := .ok 200000
    getGasPrice := .ok 20000000000
    readAllowance := .ok 99999999999999999999999999
    writeApprove := .ok "0xapprovaltxhash"
    waitApproveReceipt := .ok ()
    sendTransaction := .ok "0xevmtxhash"
    waitSwapReceiptGasUsed := .ok 180000
    supportedChains :=
      [{ chain_name := "starknet", chain_id := some 1,
         router_address := some "0xRouterStarknet" },
       { chain_name := "base", chain_id := some 8453,
         router_address := some "0xRouterBase" }]
    gasPriceMultiplier := floatOfRat 6 5 }

/-- A Starknet fee-estimation response whose overall fee is not the product
of its consumed-gas and gas-price fields. -/
def envSkewedFee : SwapEnv :=
  { envAllOk with
    snEstimateFee := .ok
      { gas_consumed := some 2, gas_price := some 3, overall_fee := some 7 } }

/-- Valid EVM-chain swap parameters used as a concrete fixture. -/
def paramsBaseFix : SwapParams :=
  { amount := "1000000000000000000", tokenInAddress := "0xa", tokenOutAddress := "0xb",
    chainName := SupportedChain.base }

/-- A chain configuration without a Starknet account address. -/
def cfgEvmFix : ChainConfig := { rpcUrl := "https://mainnet.base.org", privateKey := "0xkey" }

/-- A chain configuration with a Starknet account address. -/
def cfgSnFix : ChainConfig :=
  { rpcUrl := "https://starknet.example", privateKey := "0xkey", publicKey := some "0xpub" }

/-! ## Digit-string toolkit lemmas -/

theorem natDigitsFuel_eq : ∀ f n : ℕ, n ≤ f → natDigitsFuel f n = Nat.digits 10 n := by
  intro f
  induction f with
  | zero =>
    intro n hn
    interval_cases n
    simp [natDigitsFuel]
  | succ f ih =>
    intro n hn
    by_cases h0 : n = 0
    · subst h0; simp [natDigitsFuel]
    · have hdiv : n / 10 ≤ f := by
        have : n / 10 < n := Nat.div_lt_self (Nat.pos_of_ne_zero h0) (by norm_num)
        omega
      rw [natDigitsFuel, if_neg h0, ih _ hdiv,
        Nat.digits_def' (by norm_num : (1 : ℕ) < 10) (Nat.pos_of_ne_zero h0)]

theorem charDigit_digitCh (d : ℕ) (h : d < 10) : charDigit (digitCh d) = d := by
  interval_cases d <;> decide

theorem isDigitCh_digitCh (d : ℕ) (h : d < 10) : isDigitCh (digitCh d) = true := by
  interval_cases d <;> decide

theorem foldl_digitsToNat (l : List Char) (acc : ℕ) :
    l.foldl (fun a c => 10 * a + charDigit c) acc = acc * 10 ^ l.length + digitsToNat l := by
  induction l generalizing acc with
  | nil => simp [digitsToNat]
  | cons c t ih =>
    have hl : digitsToNat (c :: t) = t.foldl (fun a c => 10 * a + charDigit c) (10 * 0 + charDigit c) := by
      simp [digitsToNat]
    simp only [List.foldl_cons, List.length_cons, hl]
    rw [ih (10 * acc + charDigit c), ih (10 * 0 + charDigit c)]
    ring

theorem digitsToNat_append (a b : List Char) :
    digitsToNat (a ++ b) = digitsToNat a * 10 ^ b.length + digitsToNat b := by
  simp only [digitsToNat, List.foldl_append]
  exact foldl_digitsToNat b _

theorem digitsToNat_replicate_zero (k : ℕ) : digitsToNat (List.replicate k '0') = 0 := by
  induction k with
  | zero => rfl
  | succ k ih =>
    rw [List.replicate_succ]
    have h : digitsToNat ('0' :: List.replicate k '0') =
        (List.replicate k '0').foldl (fun a c => 10 * a + charDigit c) (10 * 0 + charDigit '0') := by
      simp [digitsToNat]
    rw [h, foldl_digitsToNat]
    simpa [charDigit] using ih

theorem digitsToNat_map_digitCh_reverse (L : List ℕ) (h : ∀ d ∈ L, d < 10) :
    digitsToNat ((L.map digitCh).reverse) = Nat.ofDigits 10 L := by
  induction L with
  | nil => rfl
  | cons d t ih =>
    have hd : d < 10 := h d (by simp)
    have ht : ∀ x ∈ t, x < 10 := fun x hx => h x (by simp [hx])
    simp only [List.map_cons, List.reverse_cons]
    rw [digitsToNat_append, ih ht]
    have h1 : digitsToNat [digitCh d] = d := by
      simp [digitsToNat, charDigit_digitCh d hd]
    rw [h1, Nat.ofDigits_cons]
    simp
    ring

theorem digitsToNat_natToDigits (n : ℕ) : digitsToNat (natToDigits n) = n := by
  by_cases h0 : n = 0
  · subst h0; decide
  · rw [natToDigits, if_neg h0, natDigitsFuel_eq n n le_rfl]
    rw [digitsToNat_map_digitCh_reverse _ (fun d hd => Nat.digits_lt_base (by norm_num) hd)]
    exact Nat.ofDigits_digits 10 n

theorem mem_natToDigits_digit (n : ℕ) : ∀ c ∈ natToDigits n, isDigitCh c = true := by
  intro c hc
  by_cases h0 : n = 0
  · subst h0
    simp [natToDigits] at hc
    subst hc
    decide
  · rw [natToDigits, if_neg h0, natDigitsFuel_eq n n le_rfl] at hc
    simp only [List.mem_reverse, List.mem_map] at hc
    obtain ⟨d, hd, rfl⟩ := hc
    exact isDigitCh_digitCh d (Nat.digits_lt_base (by norm_num) hd)

theorem natToDigits_ne_nil (n : ℕ) : natToDigits n ≠ [] := by
  by_cases h0 : n = 0
  · subst h0; decide
  · rw [natToDigits, if_neg h0, natDigitsFuel_eq n n le_rfl]
    simp [Nat.digits_ne_nil_iff_ne_zero.mpr h0]

theorem intToDigits_ofNat (n : ℕ) : intToDigits (n : ℤ) = natToDigits n := by
  simp [intToDigits]

theorem digit_ne_of (c ch : Char) (hch : isDigitCh ch = false) (hc : isDigitCh c = true) :
    c ≠ ch := by
  intro h
  subst h
  rw [hc] at hch
  exact absurd hch (by simp)

theorem digit_not_ws (c : Char) (hc : isDigitCh c = true) : isWsCh c = false := by
  have h1 : c ≠ ' ' := digit_ne_of c ' ' (by decide) hc
  have h2 : c ≠ '\t' := digit_ne_of c '\t' (by decide) hc
  have h3 : c ≠ '\n' := digit_ne_of c '\n' (by decide) hc
  have h4 : c ≠ '\r' := digit_ne_of c '\r' (by decide) hc
  simp [isWsCh, beq_iff_eq, h1, h2, h3, h4]

theorem dropWhile_eq_self_of_all {p : Char → Bool} (l : List Char)
    (h : ∀ c ∈ l, p c = false) : l.dropWhile p = l := by
  cases l with
  | nil => rfl
  | cons c t => simp [List.dropWhile_cons, h c (by simp)]

theorem jsTrim_eq_self (l : List Char) (h : ∀ c ∈ l, isWsCh c = false) : jsTrim l = l := by
  unfold jsTrim
  rw [dropWhile_eq_self_of_all l h,
    dropWhile_eq_self_of_all l.reverse (fun c hc => h c (List.mem_reverse.mp hc)),
    List.reverse_reverse]

theorem dtz_spec (l : List Char) :
    ∃ k, l = dropTrailingZeros l ++ List.replicate k '0' := by
  refine ⟨(l.reverse.takeWhile (· == '0')).length, ?_⟩
  have h1 : l.reverse.takeWhile (· == '0') =
      List.replicate (l.reverse.takeWhile (· == '0')).length '0' :=
    List.eq_replicate_of_mem (fun b hb => by
      have hp := List.mem_takeWhile_imp hb
      simpa [beq_iff_eq] using hp)
  conv_lhs =>
    rw [← l.reverse_reverse,
      ← List.takeWhile_append_dropWhile (p := (· == '0')) (l := l.reverse)]
  rw [List.reverse_append]
  have h2 : (l.reverse.takeWhile (· == '0')).reverse =
      List.replicate (l.reverse.takeWhile (· == '0')).length '0' := by
    conv_lhs => rw [h1]
    exact List.reverse_replicate _ _
  rw [h2]
  rfl

theorem dtz_length_le (l : List Char) : (dropTrailingZeros l).length ≤ l.length := by
  obtain ⟨k, hk⟩ := dtz_spec l
  conv_rhs => rw [hk]
  simp

theorem mem_dtz (l : List Char) (c : Char) (h : c ∈ dropTrailingZeros l) : c ∈ l := by
  obtain ⟨k, hk⟩ := dtz_spec l
  rw [hk]
  exact List.mem_append_left _ h

theorem dtz_pad (l : List Char) (d : ℕ) (hlen : l.length ≤ d) :
    dropTrailingZeros l ++ List.replicate (d - (dropTrailingZeros l).length) '0' =
      l ++ List.replicate (d - l.length) '0' := by
  obtain ⟨k, hk⟩ := dtz_spec l
  have hlk : (dropTrailingZeros l).length + k = l.length := by
    have hl := congrArg List.length hk
    simp at hl
    omega
  calc dropTrailingZeros l ++ List.replicate (d - (dropTrailingZeros l).length) '0'
      = dropTrailingZeros l ++
          (List.replicate k '0' ++ List.replicate (d - l.length) '0') := by
        rw [← List.replicate_add]
        congr 2
        omega
    _ = dropTrailingZeros l ++ List.replicate k '0' ++
          List.replicate (d - l.length) '0' := by
        rw [List.append_assoc]
    _ = l ++ List.replicate (d - l.length) '0' := by rw [← hk]

theorem dropWhile_dropWhile {p : Char → Bool} (l : List Char) :
    (l.dropWhile p).dropWhile p = l.dropWhile p := by
  induction l with
  | nil => rfl
  | cons c t ih =>
    by_cases h : p c
    · simp [List.dropWhile_cons, h, ih]
    · simp [List.dropWhile_cons, h]

theorem dtz_idem (l : List Char) :
    dropTrailingZeros (dropTrailingZeros l) = dropTrailingZeros l := by
  unfold dropTrailingZeros
  rw [List.reverse_reverse, dropWhile_dropWhile]

theorem splitDot_no_dot (l : List Char) (h : ∀ c ∈ l, c ≠ '.') : splitDot l = [l] := by
  induction l with
  | nil => rfl
  | cons c t ih =>
    simp only [splitDot]
    rw [if_neg (h c (by simp)), ih (fun x hx => h x (by simp [hx]))]

theorem splitDot_append (a b : List Char) (h : ∀ c ∈ a, c ≠ '.') :
    splitDot (a ++ '.' :: b) = a :: splitDot b := by
  induction a with
  | nil =>
    simp [splitDot]
  | cons c t ih =>
    simp only [List.cons_append, splitDot, List.append_eq]
    rw [if_neg (h c (by simp)), ih (fun x hx => h x (by simp [hx]))]

theorem takeWhile_eq_self_of_all {p : Char → Bool} (l : List Char)
    (h : ∀ c ∈ l, p c = true) : l.takeWhile p = l := by
  induction l with
  | nil => rfl
  | cons c t ih =>
    simp [List.takeWhile_cons, h c (by simp), ih (fun x hx => h x (by simp [hx]))]

theorem dropWhile_eq_nil_of_all {p : Char → Bool} (l : List Char)
    (h : ∀ c ∈ l, p c = true) : l.dropWhile p = [] := by
  induction l with
  | nil => rfl
  | cons c t ih =>
    simp [List.dropWhile_cons, h c (by simp), ih (fun x hx => h x (by simp [hx]))]

theorem takeWhile_all_append {p : Char → Bool} (a b : List Char) (c0 : Char)
    (ha : ∀ c ∈ a, p c = true) (hc : p c0 = false) :
    (a ++ c0 :: b).takeWhile p = a ∧ (a ++ c0 :: b).dropWhile p = c0 :: b := by
  induction a with
  | nil => simp [List.takeWhile_cons, List.dropWhile_cons, hc]
  | cons x t ih =>
    have hx : p x = true := ha x (by simp)
    obtain ⟨h1, h2⟩ := ih (fun y hy => ha y (by simp [hy]))
    simp [List.takeWhile_cons, List.dropWhile_cons, hx, h1, h2]

theorem hasChar_eq_false (l : List Char) (a : Char) (h : ∀ c ∈ l, c ≠ a) :
    hasChar l a = false := by
  induction l with
  | nil => rfl
  | cons c t ih =>
    simp only [hasChar, List.any_cons]
    have h1 : (c == a) = false := by simp [beq_iff_eq]; exact h c (by simp)
    rw [h1]
    simpa [hasChar] using ih (fun x hx => h x (by simp [hx]))

theorem headD_mem (l : List Char) (h : l ≠ []) (dflt : Char) : l.headD dflt ∈ l := by
  cases l with
  | nil => exact absurd rfl h
  | cons c t => simp

/-! ## Evaluation lemmas for digit-string inputs -/

theorem take2_ne_of_digits (l : List Char) (h : ∀ c ∈ l, isDigitCh c = true)
    (ch : Char) (hch : isDigitCh ch = false) (c0 : Char) : l.take 2 ≠ [c0, ch] := by
  intro he
  have hm : ch ∈ l.take 2 := by rw [he]; simp
  have hd := h ch (List.take_subset _ _ hm)
  rw [hd] at hch
  exact absurd hch (by simp)

theorem jsBigInt_digits (l : List Char) (h1 : l ≠ []) (h2 : ∀ c ∈ l, isDigitCh c = true) :
    jsBigIntOfChars l = some ((digitsToNat l : ℤ)) := by
  have htrim : jsTrim l = l := jsTrim_eq_self l (fun c hc => digit_not_ws c (h2 c hc))
  have hhead : isDigitCh (l.headD ' ') = true := h2 _ (headD_mem l h1 ' ')
  have hx := take2_ne_of_digits l h2 'x' (by decide) '0'
  have hX := take2_ne_of_digits l h2 'X' (by decide) '0'
  have ho := take2_ne_of_digits l h2 'o' (by decide) '0'
  have hO := take2_ne_of_digits l h2 'O' (by decide) '0'
  have hb := take2_ne_of_digits l h2 'b' (by decide) '0'
  have hB := take2_ne_of_digits l h2 'B' (by decide) '0'
  simp only [jsBigIntOfChars, htrim]
  rw [if_neg h1,
    if_neg (by rintro (h | h); exacts [hx h, hX h]),
    if_neg (by rintro (h | h); exacts [ho h, hO h]),
    if_neg (by rintro (h | h); exacts [hb h, hB h]),
    if_neg (digit_ne_of _ '-' (by decide) hhead),
    if_neg (digit_ne_of _ '+' (by decide) hhead)]
  have hdec : parseDecDigits l = some (digitsToNat l) := by
    rw [parseDecDigits, if_pos ⟨h1, List.all_eq_true.mpr h2⟩]
  rw [hdec]
  rfl

theorem ne_invalid_of_digit_or_dot (l : List Char)
    (h : ∀ c ∈ l, isDigitCh c = true ∨ c = '.') : l ≠ "invalid".data := by
  intro he
  have hv := h 'v' (by rw [he]; decide)
  rcases hv with hv | hv
  · exact absurd hv (by decide)
  · exact absurd hv (by decide)

theorem convertAmount_format_digits (l : List Char) (d : ℕ)
    (h1 : l ≠ []) (h2 : ∀ c ∈ l, isDigitCh c = true) :
    convertAmount (String.mk l) d ConvOp.format =
      .ok (String.mk (viemFormatUnits (digitsToNat l : ℤ) d)) := by
  have htrim : jsTrim l = l := jsTrim_eq_self l (fun c hc => digit_not_ws c (h2 c hc))
  have hhead : isDigitCh (l.headD ' ') = true := h2 _ (headD_mem l h1 ' ')
  simp only [convertAmount]
  rw [if_neg (by rintro (h | h); exacts [h1 h, h1 (htrim ▸ h)]),
    if_neg (digit_ne_of _ '-' (by decide) hhead),
    if_neg (by rintro ⟨h, -⟩; exact ConvOp.noConfusion h)]
  rw [jsBigInt_digits l h1 h2]

theorem convertAmount_parse_digits (I : List Char) (d : ℕ)
    (hne : I ≠ []) (hdig : ∀ c ∈ I, isDigitCh c = true) :
    convertAmount (String.mk I) d ConvOp.parse = .ok (natToStr (digitsToNat I * 10 ^ d)) := by
  have htrim : jsTrim I = I := jsTrim_eq_self I (fun c hc => digit_not_ws c (hdig c hc))
  have hhead : isDigitCh (I.headD ' ') = true := hdig _ (headD_mem I hne ' ')
  have hnodot : ∀ c ∈ I, c ≠ '.' := fun c hc => digit_ne_of c '.' (by decide) (hdig c hc)
  have hsplit : splitDot I = [I] := splitDot_no_dot I hnodot
  simp only [convertAmount]
  rw [if_neg (by rintro (h | h); exacts [hne h, hne (htrim ▸ h)]),
    if_neg (digit_ne_of _ '-' (by decide) hhead),
    if_neg (by
      rintro ⟨-, (h | h | h)⟩
      · rw [hsplit] at h; simp at h
      · rw [hasChar_eq_false I 'e'
          (fun c hc => digit_ne_of c 'e' (by decide) (hdig c hc))] at h
        exact absurd h (by simp)
      · exact ne_invalid_of_digit_or_dot I (fun c hc => Or.inl (hdig c hc)) h)]
  have hshape : viemDecimalShape I = true := by
    simp only [viemDecimalShape]
    rw [if_neg (digit_ne_of _ '-' (by decide) hhead),
      dropWhile_eq_nil_of_all I hdig, if_pos rfl]
  have hpad : jsBigIntOfChars (I ++ List.replicate d '0') =
      some ((digitsToNat I * 10 ^ d : ℕ) : ℤ) := by
    have hne2 : I ++ List.replicate d '0' ≠ [] := by
      intro h
      exact hne (List.append_eq_nil.mp h).1
    have hdig2 : ∀ c ∈ I ++ List.replicate d '0', isDigitCh c = true := by
      intro c hc
      rcases List.mem_append.mp hc with hc | hc
      · exact hdig c hc
      · rw [List.eq_of_mem_replicate hc]; decide
    rw [jsBigInt_digits _ hne2 hdig2, digitsToNat_append, digitsToNat_replicate_zero,
      List.length_replicate]
    simp
  have hneg : (I.headD ' ' == '-') = false := by
    simp only [beq_eq_false_iff_ne, ne_eq]
    exact digit_ne_of _ '-' (by decide) hhead
  have hdtz : dropTrailingZeros ['0'] = [] := by decide
  have hparse : viemParseUnits I d = some ((digitsToNat I * 10 ^ d : ℕ) : ℤ) := by
    simp only [viemParseUnits]
    rw [hshape, if_neg (by simp)]
    simp only [hsplit, List.headD_cons, List.drop_succ_cons, List.drop_zero, List.drop_nil,
      List.headD_nil, hneg, Bool.false_eq_true, if_false, hdtz, List.length_nil]
    by_cases hd0 : d = 0
    · subst hd0
      rw [if_pos rfl, if_pos trivial]
      simp only [Bool.false_eq_true, if_false, bigIntOfSignDigits]
      rw [jsBigInt_digits I hne hdig]
      simp
    · rw [if_neg hd0, if_neg (by omega)]
      simp only [bigIntOfSignDigits, Bool.false_eq_true, if_false]
      have hpe : padEnd ([] : List Char) d '0' = List.replicate d '0' := by
        simp [padEnd]
      rw [hpe]
      exact hpad
  rw [hparse]
  show Except.ok (String.mk (intToDigits ((digitsToNat I * 10 ^ d : ℕ) : ℤ))) =
    Except.ok (natToStr (digitsToNat I * 10 ^ d))
  rw [intToDigits_ofNat]
  rfl

theorem convertAmount_parse_fraction (I F : List Char) (d : ℕ)
    (hIdig : ∀ c ∈ I, isDigitCh c = true) (hFdig : ∀ c ∈ F, isDigitCh c = true)
    (hF : F ≠ []) (hFlen : F.length ≤ d) :
    convertAmount (String.mk (I ++ '.' :: F)) d ConvOp.parse =
      .ok (natToStr (digitsToNat I * 10 ^ d + digitsToNat F * 10 ^ (d - F.length))) := by
  have hmem : ∀ c ∈ I ++ '.' :: F, isDigitCh c = true ∨ c = '.' := by
    intro c hc
    rcases List.mem_append.mp hc with hc | hc
    · exact Or.inl (hIdig c hc)
    · rcases List.mem_cons.mp hc with hc | hc
      · exact Or.inr hc
      · exact Or.inl (hFdig c hc)
  have hLne : I ++ '.' :: F ≠ [] := by simp
  have hFpos : 0 < F.length := List.length_pos.mpr hF
  have htrim : jsTrim (I ++ '.' :: F) = I ++ '.' :: F := by
    apply jsTrim_eq_self
    intro c hc
    rcases hmem c hc with h | h
    · exact digit_not_ws c h
    · subst h; decide
  have hheadne : (I ++ '.' :: F).headD ' ' ≠ '-' := by
    have h1 := headD_mem _ hLne ' '
    rcases hmem _ h1 with h | h
    · exact digit_ne_of _ '-' (by decide) h
    · rw [h]; decide
  have hFnodot : ∀ c ∈ F, c ≠ '.' := fun c hc => digit_ne_of c '.' (by decide) (hFdig c hc)
  have hInodot : ∀ c ∈ I, c ≠ '.' := fun c hc => digit_ne_of c '.' (by decide) (hIdig c hc)
  have hsplit : splitDot (I ++ '.' :: F) = [I, F] := by
    rw [splitDot_append I F hInodot, splitDot_no_dot F hFnodot]
  simp only [convertAmount]
  rw [if_neg (by rintro (h | h); exacts [hLne h, hLne (htrim ▸ h)]),
    if_neg hheadne,
    if_neg (by
      rintro ⟨-, (h | h | h)⟩
      · rw [hsplit] at h; simp at h
      · rw [hasChar_eq_false _ 'e' (by
            intro c hc
            rcases hmem c hc with hd | hd
            · exact digit_ne_of c 'e' (by decide) hd
            · rw [hd]; decide)] at h
        exact absurd h (by simp)
      · exact ne_invalid_of_digit_or_dot _ hmem h)]
  have hshape : viemDecimalShape (I ++ '.' :: F) = true := by
    simp only [viemDecimalShape]
    rw [if_neg hheadne, (takeWhile_all_append I F '.' hIdig (by decide)).2,
      if_neg (by simp), List.headD_cons, if_pos rfl]
    simp only [List.drop_succ_cons, List.drop_zero]
    exact List.all_eq_true.mpr hFdig
  have hneg : (I.headD ' ' == '-') = false := by
    by_cases hI : I = []
    · subst hI; decide
    · simp only [beq_eq_false_iff_ne, ne_eq]
      exact digit_ne_of _ '-' (by decide) (hIdig _ (headD_mem I hI ' '))
  have hbig : jsBigIntOfChars (I ++ padEnd (dropTrailingZeros F) d '0') =
      some ((digitsToNat I * 10 ^ d + digitsToNat F * 10 ^ (d - F.length) : ℕ) : ℤ) := by
    have hpe : padEnd (dropTrailingZeros F) d '0' =
        F ++ List.replicate (d - F.length) '0' := dtz_pad F d hFlen
    rw [hpe]
    have hne2 : I ++ (F ++ List.replicate (d - F.length) '0') ≠ [] := by
      intro h
      exact hF ((List.append_eq_nil.mp ((List.append_eq_nil.mp h).2)).1)
    have hdig2 : ∀ c ∈ I ++ (F ++ List.replicate (d - F.length) '0'),
        isDigitCh c = true := by
      intro c hc
      rcases List.mem_append.mp hc with hc | hc
      · exact hIdig c hc
      · rcases List.mem_append.mp hc with hc | hc
        · exact hFdig c hc
        · rw [List.eq_of_mem_replicate hc]; decide
    rw [jsBigInt_digits _ hne2 hdig2, digitsToNat_append, digitsToNat_append,
      digitsToNat_replicate_zero, List.length_append, List.length_replicate]
    have hlen2 : F.length + (d - F.length) = d := by omega
    rw [hlen2]
    simp
  have hparse : viemParseUnits (I ++ '.' :: F) d =
      some ((digitsToNat I * 10 ^ d + digitsToNat F * 10 ^ (d - F.length) : ℕ) : ℤ) := by
    simp only [viemParseUnits]
    rw [hshape, if_neg (by simp)]
    simp only [hsplit, List.headD_cons, List.drop_succ_cons, List.drop_zero, hneg,
      Bool.false_eq_true, if_false]
    rw [if_neg (by omega), if_neg (by have h1 := dtz_length_le F; omega)]
    simp only [bigIntOfSignDigits, Bool.false_eq_true, if_false]
    exact hbig
  rw [hparse]
  show Except.ok (String.mk (intToDigits
      ((digitsToNat I * 10 ^ d + digitsToNat F * 10 ^ (d - F.length) : ℕ) : ℤ))) =
    Except.ok (natToStr (digitsToNat I * 10 ^ d + digitsToNat F * 10 ^ (d - F.length)))
  rw [intToDigits_ofNat]
  rfl

theorem convertAmount_roundtrip_aux (n d : ℕ) :
    convertAmount (String.mk (viemFormatUnits (n : ℤ) d)) d ConvOp.parse =
      .ok (natToStr n) := by
  have hs_dig := mem_natToDigits_digit n
  have hs_ne := natToDigits_ne_nil n
  have hneg : ((natToDigits n).headD ' ' == '-') = false := by
    simp only [beq_eq_false_iff_ne, ne_eq]
    exact digit_ne_of _ '-' (by decide) (hs_dig _ (headD_mem _ hs_ne ' '))
  set s := natToDigits n with hs
  set D := padStart s d '0' with hD
  set I0 := D.take (D.length - d) with hI0
  set F0 := D.drop (D.length - d) with hF0
  have hDlen : D.length = (d - s.length) + s.length := by
    rw [hD]; simp [padStart]
  have hDdig : ∀ c ∈ D, isDigitCh c = true := by
    intro c hc
    rw [hD, padStart] at hc
    rcases List.mem_append.mp hc with hc | hc
    · rw [List.eq_of_mem_replicate hc]; decide
    · exact hs_dig c hc
  have hF0len : F0.length = d := by
    rw [hF0, List.length_drop]
    omega
  have hIF : I0 ++ F0 = D := by
    rw [hI0, hF0]
    exact List.take_append_drop _ _
  have hDval : digitsToNat D = n := by
    rw [hD, padStart, digitsToNat_append, digitsToNat_replicate_zero, hs,
      digitsToNat_natToDigits]
    ring
  have hval : digitsToNat I0 * 10 ^ d + digitsToNat F0 = n := by
    have h2 := digitsToNat_append I0 F0
    rw [hIF, hDval, hF0len] at h2
    omega
  have hout : viemFormatUnits (n : ℤ) d =
      (if I0.isEmpty then ['0'] else I0) ++
        (if (dropTrailingZeros F0).isEmpty then []
         else '.' :: dropTrailingZeros F0) := by
    rw [hI0, hF0, hD, hs]
    simp only [viemFormatUnits, intToDigits_ofNat, hneg, Bool.false_eq_true, if_false,
      List.nil_append]
  rw [hout]
  by_cases hFe : dropTrailingZeros F0 = []
  · -- the fractional part was all zeros
    have hF0val : digitsToNat F0 = 0 := by
      obtain ⟨k, hk⟩ := dtz_spec F0
      rw [hFe, List.nil_append] at hk
      rw [hk, digitsToNat_replicate_zero]
    rw [hFe]
    simp only [List.isEmpty_nil, if_true, List.append_nil]
    by_cases hIe : I0.isEmpty
    · have hI0nil : I0 = [] := List.isEmpty_iff.mp hIe
      rw [if_pos hIe,
        convertAmount_parse_digits ['0'] d (by simp)
          (by intro c hc; simp at hc; subst hc; decide)]
      have hn0 : n = 0 := by
        rw [← hval, hI0nil, hF0val]
        simp [digitsToNat]
      have h00 : digitsToNat ['0'] = 0 := by decide
      rw [hn0, h00]
      simp
    · have hI0ne : I0 ≠ [] := fun h => hIe (by rw [h]; rfl)
      rw [if_neg hIe,
        convertAmount_parse_digits I0 d hI0ne
          (fun c hc => hDdig c (hIF ▸ List.mem_append_left _ hc))]
      have hkey : digitsToNat I0 * 10 ^ d = n := by omega
      rw [hkey]
  · -- nonempty fractional part
    rw [if_neg (fun h => hFe (List.isEmpty_iff.mp h))]
    have hIdig : ∀ c ∈ (if I0.isEmpty then ['0'] else I0), isDigitCh c = true := by
      intro c hc
      by_cases hIe : I0.isEmpty
      · rw [if_pos hIe] at hc
        simp at hc
        subst hc
        decide
      · rw [if_neg hIe] at hc
        exact hDdig c (hIF ▸ List.mem_append_left _ hc)
    have hIval : digitsToNat (if I0.isEmpty then ['0'] else I0) = digitsToNat I0 := by
      by_cases hIe : I0.isEmpty
      · rw [if_pos hIe, List.isEmpty_iff.mp hIe]
        decide
      · rw [if_neg hIe]
    have hFdig2 : ∀ c ∈ dropTrailingZeros F0, isDigitCh c = true :=
      fun c hc => hDdig c (hIF ▸ List.mem_append_right _ (mem_dtz F0 c hc))
    have hdtzlen := dtz_length_le F0
    rw [convertAmount_parse_fraction _ _ d hIdig hFdig2 hFe (by omega)]
    have hkey : digitsToNat (if I0.isEmpty then ['0'] else I0) * 10 ^ d +
        digitsToNat (dropTrailingZeros F0) *
          10 ^ (d - (dropTrailingZeros F0).length) = n := by
      rw [hIval]
      obtain ⟨k, hk⟩ := dtz_spec F0
      have hklen : (dropTrailingZeros F0).length + k = F0.length := by
        have hcl := congrArg List.length hk
        simp at hcl
        omega
      have hF0v : digitsToNat F0 = digitsToNat (dropTrailingZeros F0) * 10 ^ k := by
        conv_lhs => rw [hk]
        rw [digitsToNat_append, digitsToNat_replicate_zero, List.length_replicate]
        ring
      have hkd : k = d - (dropTrailingZeros F0).length := by omega
      rw [← hval, hF0v, hkd]
    rw [hkey]

/-! ## Engine helper lemmas -/

theorem getViemChain_ok (c : SupportedChain) (h : c ≠ SupportedChain.starknet) :
    getViemChain c = .ok () := by
  cases c
  · rfl
  · exact absurd rfl h
  · rfl

theorem resolveReceiver_ok_evm (params : SwapParams) (chainConfig : ChainConfig)
    (env : SwapEnv) (s0 : String) (hcn : params.chainName ≠ SupportedChain.starknet)
    (hacct : env.evmAccountAddress = .ok s0) :
    ∃ r, resolveReceiver params chainConfig env = .ok r := by
  have hgw : getWalletAddress chainConfig params.chainName env = .ok s0 := by
    simp only [getWalletAddress]
    rw [if_neg hcn]
    exact hacct
  simp only [resolveReceiver]
  rcases hrv : params.receiverAddress with _ | r <;> simp only [hrv]
  · exact ⟨_, hgw⟩
  · by_cases hre : (r == "") = true
    · rw [if_pos hre]
      exact ⟨_, hgw⟩
    · rw [if_neg hre]
      exact ⟨_, rfl⟩

theorem approveTokenIfNeeded_skip (env : SwapEnv) (tin spender : String) (amount : ℤ)
    (hskip : tin = zeroAddress ∨ ∃ al, env.readAllowance = .ok al ∧ amount ≤ al) :
    approveTokenIfNeeded env tin spender amount = ([], .ok ()) := by
  simp only [approveTokenIfNeeded]
  rcases hskip with h | ⟨al, hal, hle⟩
  · rw [if_pos h]
  · by_cases h0 : tin = zeroAddress
    · rw [if_pos h0]
    · rw [if_neg h0]
      simp only [hal]
      rw [if_pos hle]

theorem approveTokenIfNeeded_approve (env : SwapEnv) (tin spender : String) (amount : ℤ)
    (al : ℤ) (h1 : String)
    (hfar : tin ≠ zeroAddress) (hal : env.readAllowance = .ok al) (hlt : al < amount)
    (happr : env.writeApprove = .ok h1) (hwait : env.waitApproveReceipt = .ok ()) :
    approveTokenIfNeeded env tin spender amount =
      ([TxEvent.approveSubmitted tin spender amount, TxEvent.approveConfirmed], .ok ()) := by
  simp only [approveTokenIfNeeded]
  rw [if_neg hfar]
  simp only [hal]
  rw [if_neg (not_le.mpr hlt)]
  simp only [happr, hwait]

theorem executeEvmSwap_zero_approvals (amount : ℤ) (tin tout recv : String)
    (chainName : SupportedChain) (chainConfig : ChainConfig) (env : SwapEnv) (ra : String)
    (hcn : chainName ≠ SupportedChain.starknet)
    (hra : (findChain env.supportedChains (chainNameStr chainName)).bind
      (fun c => c.router_address) = some ra)
    (hra2 : ra ≠ "")
    (hskip : tin = zeroAddress ∨ ∃ al, env.readAllowance = .ok al ∧ amount ≤ al) :
    countApprovals (executeEvmSwap amount tin tout recv chainName chainConfig env).2 = 0 := by
  simp only [executeEvmSwap, getViemChain_ok _ hcn]
  rcases hacctv : env.evmAccountAddress with e | s0 <;> simp only [hacctv]
  · simp [countApprovals]
  · have hfal : jsFalsyOptStr ((findChain env.supportedChains
        (chainNameStr chainName)).bind (fun c => c.router_address)) = false := by
      rw [hra]
      simp [jsFalsyOptStr, hra2]
    rw [if_neg (by simp [hfal])]
    simp only [approveTokenIfNeeded_skip env tin _ amount hskip]
    rcases h2 : env.buildRouteAndCalldata with e | c0 <;> simp only [h2]
    · simp [countApprovals]
    · rcases h3 : env.getGasPrice with e | p0 <;> simp only [h3]
      · simp [countApprovals]
      · rcases h4 : env.sendTransaction with e | hx <;> simp only [h4]
        · simp [countApprovals]
        · rcases h5 : env.waitSwapReceiptGasUsed with e | g0 <;> simp only [h5]
          · simp [countApprovals]
          · simp [countApprovals]

theorem executeEvmSwap_one_approval (amount : ℤ) (tin tout recv : String)
    (chainName : SupportedChain) (chainConfig : ChainConfig) (env : SwapEnv)
    (ra s0 : String) (al : ℤ) (h1 c0 hx : String) (p0 g0 : ℕ)
    (hcn : chainName ≠ SupportedChain.starknet)
    (hacct : env.evmAccountAddress = .ok s0)
    (hra : (findChain env.supportedChains (chainNameStr chainName)).bind
      (fun c => c.router_address) = some ra)
    (hra2 : ra ≠ "")
    (hfar : tin ≠ zeroAddress)
    (hal : env.readAllowance = .ok al) (hlt : al < amount)
    (happr : env.writeApprove = .ok h1) (hwait : env.waitApproveReceipt = .ok ())
    (hroute : env.buildRouteAndCalldata = .ok c0) (hgp : env.getGasPrice = .ok p0)
    (hsend : env.sendTransaction = .ok hx)
    (hwaitswap : env.waitSwapReceiptGasUsed = .ok g0) :
    (executeEvmSwap amount tin tout recv chainName chainConfig env).2 =
      [TxEvent.approveSubmitted tin ra amount, TxEvent.approveConfirmed,
       TxEvent.swapSubmitted ra, TxEvent.swapConfirmed] := by
  simp only [executeEvmSwap, getViemChain_ok _ hcn, hacct]
  have hfal : jsFalsyOptStr ((findChain env.supportedChains
      (chainNameStr chainName)).bind (fun c => c.router_address)) = false := by
    rw [hra]
    simp [jsFalsyOptStr, hra2]
  rw [if_neg (by simp [hfal])]
  have hgetD : ((findChain env.supportedChains (chainNameStr chainName)).bind
      (fun c => c.router_address)).getD "" = ra := by
    rw [hra]
    rfl
  rw [hgetD]
  simp only [approveTokenIfNeeded_approve env tin ra amount al h1 hfar hal hlt happr hwait,
    hroute, hgp, hsend, hwaitswap]
  rfl

theorem dropWhile_head_not {p : Char → Bool} (l : List Char) :
    l.dropWhile p = [] ∨ ∃ c t, l.dropWhile p = c :: t ∧ p c = false := by
  induction l with
  | nil => exact Or.inl rfl
  | cons c t ih =>
    by_cases h : p c
    · simpa [List.dropWhile_cons, h] using ih
    · exact Or.inr ⟨c, t, by simp [List.dropWhile_cons, h], by simp [h]⟩

theorem dtz_getLast_ne_zero (l : List Char) :
    dropTrailingZeros l = [] ∨ (dropTrailingZeros l).getLast? ≠ some '0' := by
  rcases dropWhile_head_not (p := (· == '0')) l.reverse with h | ⟨c, t, h, hc⟩
  · left
    unfold dropTrailingZeros
    rw [h]
    rfl
  · right
    unfold dropTrailingZeros
    rw [h, List.getLast?_reverse]
    simp only [List.head?_cons, ne_eq, Option.some.injEq]
    intro he
    rw [he] at hc
    simp at hc

theorem jsToFixed_shape (x : JsFloat) (f : ℕ) (hf : f ≠ 0)
    (hx : x.atLeast (10 ^ 21) = false) :
    ∃ A B, jsToFixed x f = A ++ '.' :: B ∧ A ≠ [] ∧
      (∀ c ∈ A, isDigitCh c = true) ∧ (∀ c ∈ B, isDigitCh c = true) ∧ B.length = f := by
  have hsdig : ∀ c ∈ padStart (natToDigits (jsFloorHalfUp x (10 ^ f))) (f + 1) '0',
      isDigitCh c = true := by
    intro c hc
    rw [padStart] at hc
    rcases List.mem_append.mp hc with hc | hc
    · rw [List.eq_of_mem_replicate hc]; decide
    · exact mem_natToDigits_digit _ c hc
  have hslen : f + 1 ≤
      (padStart (natToDigits (jsFloorHalfUp x (10 ^ f))) (f + 1) '0').length := by
    rw [padStart, List.length_append, List.length_replicate]
    omega
  refine ⟨(padStart (natToDigits (jsFloorHalfUp x (10 ^ f))) (f + 1) '0').take
      ((padStart (natToDigits (jsFloorHalfUp x (10 ^ f))) (f + 1) '0').length - f),
    (padStart (natToDigits (jsFloorHalfUp x (10 ^ f))) (f + 1) '0').drop
      ((padStart (natToDigits (jsFloorHalfUp x (10 ^ f))) (f + 1) '0').length - f),
    ?_, ?_, ?_, ?_, ?_⟩
  · simp only [jsToFixed]
    rw [if_neg (by rw [hx]; decide)]
    rw [if_neg hf]
  · apply List.ne_nil_of_length_pos
    rw [List.length_take]
    omega
  · exact fun c hc => hsdig c (List.take_subset _ _ hc)
  · exact fun c hc => hsdig c (List.drop_subset _ _ hc)
  · rw [List.length_drop]
    omega

theorem formatAmountPretty_shape (a : String) (d m : ℕ) (s : String)
    (h : formatAmountPretty a d m = .ok s)
    (hlt : Option.all (fun x => ! JsFloat.atLeast x (10 ^ 21)) (prettyFloat a d) = true) :
    hasChar s.data '.' = false ∨
      ∃ w t, s.data = w ++ '.' :: t ∧ t ≠ [] ∧ t.length ≤ m ∧ t.getLast? ≠ some '0' := by
  revert h
  simp only [formatAmountPretty]
  split
  · intro h
    exact absurd h (by simp)
  · split
    · intro h
      exact absurd h (by simp)
    · rename_i hguard v hv
      have hx : JsFloat.atLeast (jsParseFloat (viemFormatUnits v d)).2 (10 ^ 21) = false := by
        simp only [prettyFloat, hv, Option.all] at hlt
        simpa using hlt
      have hPmem : ∀ c ∈ (if (jsParseFloat (viemFormatUnits v d)).1 then ['-'] else []),
          c = '-' := by
        by_cases hn : (jsParseFloat (viemFormatUnits v d)).1 <;> simp [hn]
      by_cases hm : m = 0
      · subst hm
        intro h
        have hnodot : ∀ c ∈ (if (jsParseFloat (viemFormatUnits v d)).1 then ['-'] else []) ++
            jsToFixed (jsParseFloat (viemFormatUnits v d)).2 0, c ≠ '.' := by
          intro c hc
          rcases List.mem_append.mp hc with hc | hc
          · rw [hPmem c hc]; decide
          · have hdig : isDigitCh c = true := by
              have : jsToFixed (jsParseFloat (viemFormatUnits v d)).2 0 =
                  natToDigits (jsFloorHalfUp (jsParseFloat (viemFormatUnits v d)).2
                    (10 ^ 0)) := by
                simp only [jsToFixed]
                rw [if_neg (by rw [hx]; decide), if_pos trivial]
              rw [this] at hc
              exact mem_natToDigits_digit _ c hc
            exact digit_ne_of c '.' (by decide) hdig
        rw [splitDot_no_dot _ hnodot] at h
        simp only [List.headD_cons] at h
        have hs := (Except.ok.injEq _ _).mp h.symm
        subst hs
        left
        exact hasChar_eq_false _ '.' hnodot
      · obtain ⟨A, B, hAB, hAne, hAdig, hBdig, hBlen⟩ :=
          jsToFixed_shape (jsParseFloat (viemFormatUnits v d)).2 m hm hx
        intro h
        rw [hAB, ← List.append_assoc] at h
        have hPnodot : ∀ c ∈ (if (jsParseFloat (viemFormatUnits v d)).1 then ['-'] else []) ++
            A, c ≠ '.' := by
          intro c hc
          rcases List.mem_append.mp hc with hc | hc
          · rw [hPmem c hc]; decide
          · exact digit_ne_of c '.' (by decide) (hAdig c hc)
        have hBnodot : ∀ c ∈ B, c ≠ '.' :=
          fun c hc => digit_ne_of c '.' (by decide) (hBdig c hc)
        rw [splitDot_append _ _ hPnodot, splitDot_no_dot B hBnodot] at h
        simp only [List.headD_cons] at h
        by_cases hT : dropTrailingZeros B = []
        · rw [if_pos hT] at h
          have hs := (Except.ok.injEq _ _).mp h.symm
          subst hs
          left
          exact hasChar_eq_false _ '.' (fun c hc => hPnodot c hc)
        · rw [if_neg hT] at h
          have hs := (Except.ok.injEq _ _).mp h.symm
          subst hs
          right
          exact ⟨_, _, rfl, hT, le_trans (dtz_length_le B) (le_of_eq hBlen),
            (dtz_getLast_ne_zero B).resolve_left hT⟩

theorem digitsToNat_natToStr (n : ℕ) : digitsToNat (natToStr n).data = n :=
  digitsToNat_natToDigits n

/-! ## Claim theorems -/

/-- C1 (counterexample).  The claim states that `convertAmount` with
operation `"parse"` truncates excess fractional digits, so that
`"1.23456789"` at 4 decimals yields `"12345"`.  The embedded code (viem
`parseUnits`) rounds instead: the result is `"12346"`, not `"12345"`. -/
theorem c1_counterexample :
    convertAmount "1.23456789" 4 ConvOp.parse = .ok "12346" ∧
      ("12346" : String) ≠ "12345" :=
  ⟨by decide, by decide⟩

/-- C1 (amended).  `toSmallestUnit` right-pads the fractional part with
zeros when it has at most `decimals` digits (the conversion is then exact,
for every whole/fraction digit-string split), but when the fractional part
exceeds `decimals` digits the excess is rounded to nearest (viem
`parseUnits` semantics), never truncated: `"1.23456789"` with `decimals = 4`
parses to `"12346"`. -/
theorem c1_amended :
    (∀ (I F : List Char) (d : ℕ),
        (∀ c ∈ I, isDigitCh c = true) → (∀ c ∈ F, isDigitCh c = true) →
        F ≠ [] → F.length ≤ d →
        convertAmount (String.mk (I ++ '.' :: F)) d ConvOp.parse =
          .ok (natToStr (digitsToNat I * 10 ^ d + digitsToNat F * 10 ^ (d - F.length)))) ∧
      convertAmount "1.23456789" 4 ConvOp.parse = .ok "12346" :=
  ⟨convertAmount_parse_fraction, by decide⟩

/-- C1 (witness).  The padding statement of the amended claim evaluated at
`"1.5"` with 18 decimals. -/
theorem c1_amended_witness :
    convertAmount (String.mk ("1".data ++ '.' :: "5".data)) 18 ConvOp.parse =
      .ok (natToStr (digitsToNat "1".data * 10 ^ 18 +
        digitsToNat "5".data * 10 ^ (18 - "5".data.length))) :=
  c1_amended.1 "1".data "5".data 18 (by decide) (by decide) (by decide) (by decide)

/-- C4 (counterexample).  The claim asserts the round-trip
`toSmallestUnit (toHumanUnit x d) d = x` for every valid non-negative
integer string `x`.  It fails for strings with superfluous leading zeros:
`"00"` is accepted by the code (`BigInt("00") = 0`), but the round trip
returns the canonical spelling `"0"`, not `"00"`. -/
theorem c4_counterexample :
    (convertAmount "00" 18 ConvOp.format).bind
        (fun s => convertAmount s 18 ConvOp.parse) = .ok "0" ∧
      ("0" : String) ≠ "00" :=
  ⟨by decide, by decide⟩

/-- C4 (amended).  For every canonical non-negative integer string (the
decimal rendering `natToStr n`, which has no leading zeros) and every
`decimals` in [0, 30], formatting to a human-readable string and parsing
back returns exactly the original string. -/
theorem c4_amended (n d : ℕ) (_hd : d ≤ 30) :
    (convertAmount (natToStr n) d ConvOp.format).bind
      (fun s => convertAmount s d ConvOp.parse) = .ok (natToStr n) := by
  have h1 := convertAmount_format_digits (natToDigits n) d (natToDigits_ne_nil n)
    (mem_natToDigits_digit n)
  rw [digitsToNat_natToDigits] at h1
  show (convertAmount (String.mk (natToDigits n)) d ConvOp.format).bind
    (fun s => convertAmount s d ConvOp.parse) = .ok (natToStr n)
  rw [h1]
  show convertAmount (String.mk (viemFormatUnits (n : ℤ) d)) d ConvOp.parse =
    .ok (natToStr n)
  exact convertAmount_roundtrip_aux n d

/-- C4 (witness).  The amended round trip evaluated at `x = "12345"`,
`decimals = 6`. -/
theorem c4_amended_witness :
    (convertAmount (natToStr 12345) 6 ConvOp.format).bind
      (fun s => convertAmount s 6 ConvOp.parse) = .ok (natToStr 12345) :=
  c4_amended 12345 6 (by decide)

/-- C5 (counterexample).  The claim states `formatAmountPretty` truncates
(never exceeding the true value), returning `"1.2345"` on
`("1234567890123456789", 18, 4)`.  The embedded implementation rounds via
`parseFloat`/`toFixed` and returns `"1.2346"`. -/
theorem c5_counterexample :
    formatAmountPretty "1234567890123456789" 18 4 = .ok "1.2346" ∧
      ("1.2346" : String) ≠ "1.2345" :=
  ⟨by decide, by decide⟩

/-- C5 (amended).  When the value `formatAmountPretty` parses is below
`10 ^ 21` (so `toFixed` stays in its fixed-point branch), every successful
result has at most `maxDecimals` fractional digits with trailing zeros
stripped — but the reduction to `maxDecimals` digits is binary64 `toFixed`
rounding, not truncation: on `("1234567890123456789", 18, 4)` it returns
`"1.2346"`, exceeding the true value, while the repository's legacy variant
truncates with `slice(0, maxDecimals)` and returns `"1.2345"`.  At parsed
values of `10 ^ 21` and above, `toFixed` falls back to `ToString` and the
digit bound fails outright: `("1234" ++ 36 zeros, 18, 4)` returns
`"1.234e+21"`, whose part after the point has 7 characters. -/
theorem c5_amended :
    (∀ (a : String) (d m : ℕ) (s : String), formatAmountPretty a d m = .ok s →
      Option.all (fun x => ! JsFloat.atLeast x (10 ^ 21)) (prettyFloat a d) = true →
      hasChar s.data '.' = false ∨
        ∃ w t, s.data = w ++ '.' :: t ∧ t ≠ [] ∧ t.length ≤ m ∧ t.getLast? ≠ some '0') ∧
      formatAmountPretty "1234567890123456789" 18 4 = .ok "1.2346" ∧
      formatAmountPrettyLegacy "1234567890123456789" 18 4 = .ok "1.2345" ∧
      formatAmountPretty "1234000000000000000000000000000000000000" 18 4 =
        .ok "1.234e+21" ∧
      ("1.234e+21" : String).data = '1' :: '.' :: "234e+21".data ∧
      4 < ("234e+21" : String).data.length ∧
      formatAmountPretty "1500000000000000000" 18 4 = .ok "1.5" ∧
      formatAmountPrettyLegacy "1500000000000000000" 18 4 = .ok "1.5" :=
  ⟨formatAmountPretty_shape, by decide, by decide, by decide, by decide, by decide,
    by decide, by decide⟩

/-- C5 (witness).  The output-shape statement of the amended claim at a
concrete input below the `toFixed` fallback threshold: the result `"1.5"`
carries one fractional digit (at most 4) with no trailing zero. -/
theorem c5_amended_witness :
    hasChar ("1.5" : String).data '.' = false ∨
      ∃ w t, ("1.5" : String).data = w ++ '.' :: t ∧ t ≠ [] ∧ t.length ≤ 4 ∧
        t.getLast? ≠ some '0' :=
  c5_amended.1 "1500000000000000000" 18 4 "1.5" (by decide) (by decide)

/-- C8 (confirmed).  The EVM gas-price multiplier computation of
`executeEvmSwap` and the one of `estimateSwapGas` are the identical integer
formula `gasPrice * BigInt(Math.round(multiplier * 100)) / 100`: for the
same fetched gas price and the same configured multiplier they produce the
same final gas price. -/
theorem c8_gas_price_formula (gasPrice : ℕ) (mult : JsFloat) :
    execEvmFinalGasPrice gasPrice mult = estimateEvmFinalGasPrice gasPrice mult := rfl

/-- C9 (counterexample).  The claim states `validateSwapParams` rejects
every string spelling of zero.  The code compares the amount with the
literal `"0"` only: `"00"` denotes zero (`toBigInt "00" = 0`) yet validates
successfully. -/
theorem c9_counterexample :
    toBigInt "00" = .ok 0 ∧
      (validateSwapParams
          { amount := "00", tokenInAddress := "0xa", tokenOutAddress := "0xb",
            chainName := SupportedChain.base }).isValid = true :=
  ⟨by decide, by decide⟩

/-- C9 (amended).  `validateSwapParams` reports "Amount must be greater
than 0" and fails validation when the amount is the empty string (the
source's falsy check `!params.amount`) or the literal string `"0"`; other
spellings of zero pass. -/
theorem c9_amended (params : SwapParams)
    (h : params.amount = "" ∨ params.amount = "0") :
    (validateSwapParams params).isValid = false ∧
      "Amount must be greater than 0" ∈ (validateSwapParams params).errors := by
  simp only [validateSwapParams]
  rw [if_pos h]
  simp only [List.cons_append, List.nil_append]
  constructor
  · rfl
  · exact List.mem_cons_self _ _

/-- C9 (witness).  The amended claim evaluated at parameter sets whose
amount is the empty string and the literal `"0"`. -/
theorem c9_amended_witness :
    ((validateSwapParams
        { amount := "", tokenInAddress := "0xa", tokenOutAddress := "0xb",
          chainName := SupportedChain.base }).isValid = false ∧
      "Amount must be greater than 0" ∈
        (validateSwapParams
          { amount := "", tokenInAddress := "0xa", tokenOutAddress := "0xb",
            chainName := SupportedChain.base }).errors) ∧
    ((validateSwapParams
        { amount := "0", tokenInAddress := "0xa", tokenOutAddress := "0xb",
          chainName := SupportedChain.base }).isValid = false ∧
      "Amount must be greater than 0" ∈
        (validateSwapParams
          { amount := "0", tokenInAddress := "0xa", tokenOutAddress := "0xb",
            chainName := SupportedChain.base }).errors) :=
  ⟨c9_amended _ (Or.inl rfl), c9_amended _ (Or.inr rfl)⟩

/-- C10 (confirmed).  `estimateSwapGas` parses the amount with `toBigInt`
before its `try` block: for every amount string that is empty, contains a
decimal point, contains `e`, equals `"0x"`, or is longer than 77
characters, it propagates an error instead of returning any `GasEstimate`
(the fallback policy does not protect amount parsing). -/
theorem c10_bad_amount_throws (params : SwapParams) (chainConfig : ChainConfig)
    (env : SwapEnv)
    (h : params.amount = "" ∨ hasChar params.amount.data '.' = true ∨
      hasChar params.amount.data 'e' = true ∨ params.amount = "0x" ∨
      77 < params.amount.data.length) :
    ∃ e, estimateSwapGas params chainConfig env = .error e := by
  have h2 : ∃ e, toBigInt params.amount = .error e := by
    simp only [toBigInt]
    split
    · exact ⟨_, rfl⟩
    · split
      · exact ⟨_, rfl⟩
      · split
        · exact ⟨_, rfl⟩
        · split
          · exact ⟨_, rfl⟩
          · split
            · exact ⟨_, rfl⟩
            · exfalso
              rename_i hc1 hc2 hc3 hc4 o v hv
              rcases h with h | h | h | h | h
              · exact hc1 (Or.inl (by rw [h]))
              · exact hc3 (Or.inl h)
              · exact hc4 (Or.inl h)
              · exact hc3 (Or.inr (Or.inl (by rw [h])))
              · exact hc4 (Or.inr h)
  obtain ⟨e, he⟩ := h2
  refine ⟨e, ?_⟩
  simp only [estimateSwapGas, he]

/-- C10 (witness).  The estimator at amount `"0x"` (with an otherwise
fully functional environment) propagates the error. -/
theorem c10_bad_amount_witness :
    ∃ e, estimateSwapGas { paramsBaseFix with amount := "0x" } cfgEvmFix envAllOk =
      .error e :=
  c10_bad_amount_throws _ _ _ (Or.inr (Or.inr (Or.inr (Or.inl rfl))))

set_option maxHeartbeats 4000000 in
/-- C7 (confirmed).  Every `SwapResult` produced by `executeSwap` — on any
chain, for any outcome of the external calls — populates exactly one
branch: success carries a transaction hash and no error, failure carries an
error and no transaction hash. -/
theorem c7_mutual_exclusivity (params : SwapParams) (chainConfig : ChainConfig)
    (env : SwapEnv) :
    ((executeSwap params chainConfig env).1.success = true →
      (executeSwap params chainConfig env).1.transactionHash.isSome = true ∧
        (executeSwap params chainConfig env).1.error = none) ∧
    ((executeSwap params chainConfig env).1.success = false →
      (executeSwap params chainConfig env).1.error.isSome = true ∧
        (executeSwap params chainConfig env).1.transactionHash = none) := by
  obtain ⟨acct, bApp, bRoute, snEx, snFee, evmGas, gasP, allw, wAppr, waitAppr,
    sendTx, waitSwap, chains, mult⟩ := env
  obtain ⟨amount, tin, tout, slip, recv, chain⟩ := params
  unfold executeSwap executeEvmSwap executeStarknetSwap approveTokenIfNeeded
    resolveReceiver getWalletAddress getViemChain
  cases chain <;> (repeat' split) <;> (try simp_all [mkFailResult])
  all_goals repeat' (first | split | simp_all [mkFailResult])

/-- C7 (witness).  Both directions of the mutual-exclusivity invariant at
concrete executions: a successful EVM swap and a failed Starknet swap
(missing account address). -/
theorem c7_mutual_exclusivity_witness :
    ((executeSwap paramsBaseFix cfgEvmFix envAllOk).1.transactionHash.isSome = true ∧
      (executeSwap paramsBaseFix cfgEvmFix envAllOk).1.error = none) ∧
    ((executeSwap { paramsBaseFix with chainName := SupportedChain.starknet }
          cfgEvmFix envAllOk).1.error.isSome = true ∧
      (executeSwap { paramsBaseFix with chainName := SupportedChain.starknet }
          cfgEvmFix envAllOk).1.transactionHash = none) :=
  ⟨(c7_mutual_exclusivity paramsBaseFix cfgEvmFix envAllOk).1 (by decide),
   (c7_mutual_exclusivity { paramsBaseFix with chainName := SupportedChain.starknet }
      cfgEvmFix envAllOk).2 (by decide)⟩

/-- C2 (confirmed).  Whenever any step of live estimation fails — the
account-address resolution, the Starknet account check, the route/calldata
fetch, the RPC gas/fee estimation, or the gas-price read — `estimateSwapGas`
does not propagate the exception: it returns (as an ordinary value, of the
same shape as a live estimate) the fixed per-chain-family fallback tuple,
whose `estimatedCost` is the exact integer product of the fallback
`gasEstimate` and `gasPrice` constants. -/
theorem c2_fallback (params : SwapParams) (chainConfig : ChainConfig) (env : SwapEnv)
    (hamount : ∃ a, toBigInt params.amount = .ok a)
    (hfail :
      (params.chainName = SupportedChain.starknet ∧
        (jsFalsyOptStr chainConfig.publicKey = true ∨
          (∃ e, env.buildApproveStarknet = .error e) ∨
          (∃ e, env.buildRouteAndCalldata = .error e) ∨
          (∃ e, env.snEstimateFee = .error e))) ∨
      (params.chainName ≠ SupportedChain.starknet ∧
        ((∃ e, env.evmAccountAddress = .error e) ∨
          (∃ e, env.buildRouteAndCalldata = .error e) ∨
          (∃ e, env.evmEstimateGas = .error e) ∨
          (∃ e, env.getGasPrice = .error e)))) :
    estimateSwapGas params chainConfig env = .ok (gasFallback params.chainName) ∧
      digitsToNat (gasFallback params.chainName).estimatedCost.data =
        digitsToNat (gasFallback params.chainName).gasEstimate.data *
          digitsToNat (gasFallback params.chainName).gasPrice.data := by
  have hbody : ∃ e, estimateSwapGasBody params chainConfig env = .error e := by
    rcases hfail with ⟨hcn, hsub⟩ | ⟨hcn, hsub⟩
    · simp only [estimateSwapGasBody, getWalletAddress, hcn]
      rw [if_pos trivial]
      by_cases hpk : jsFalsyOptStr chainConfig.publicKey = true
      · rw [if_pos hpk]
        exact ⟨_, rfl⟩
      · rw [if_neg hpk, if_pos trivial, if_neg hpk]
        rcases hsub with hpk2 | ⟨e, he⟩ | ⟨e, he⟩ | ⟨e, he⟩
        · exact absurd hpk2 hpk
        · rw [he]
          exact ⟨_, rfl⟩
        · rcases h1 : env.buildApproveStarknet with e1 | v1
          · exact ⟨_, rfl⟩
          · rw [he]
            exact ⟨_, rfl⟩
        · rcases h1 : env.buildApproveStarknet with e1 | v1
          · exact ⟨_, rfl⟩
          · rcases h2 : env.buildRouteAndCalldata with e2 | v2
            · exact ⟨_, rfl⟩
            · rw [he]
              exact ⟨_, rfl⟩
    · simp only [estimateSwapGasBody, getWalletAddress]
      rw [if_neg hcn, if_neg hcn]
      rcases hsub with ⟨e, he⟩ | ⟨e, he⟩ | ⟨e, he⟩ | ⟨e, he⟩
      · rw [he]
        exact ⟨_, rfl⟩
      · rcases h1 : env.evmAccountAddress with e1 | v1
        · exact ⟨_, rfl⟩
        · rw [he]
          exact ⟨_, rfl⟩
      · rcases h1 : env.evmAccountAddress with e1 | v1
        · exact ⟨_, rfl⟩
        · rcases h2 : env.buildRouteAndCalldata with e2 | v2
          · exact ⟨_, rfl⟩
          · rw [he]
            exact ⟨_, rfl⟩
      · rcases h1 : env.evmAccountAddress with e1 | v1
        · exact ⟨_, rfl⟩
        · rcases h2 : env.buildRouteAndCalldata with e2 | v2
          · exact ⟨_, rfl⟩
          · rcases h3 : env.evmEstimateGas with e3 | v3
            · exact ⟨_, rfl⟩
            · rw [he]
              exact ⟨_, rfl⟩
  constructor
  · obtain ⟨a, ha⟩ := hamount
    obtain ⟨e, he⟩ := hbody
    simp only [estimateSwapGas, ha, he]
  · cases params.chainName <;> decide

/-- C2 (witness).  A Starknet estimation with the account address missing
falls back to the Starknet constants `(50000, 1 gwei)` with their product
as cost. -/
theorem c2_fallback_witness :
    estimateSwapGas { paramsBaseFix with chainName := SupportedChain.starknet } cfgEvmFix
        envAllOk = .ok (gasFallback SupportedChain.starknet) ∧
      digitsToNat (gasFallback SupportedChain.starknet).estimatedCost.data =
        digitsToNat (gasFallback SupportedChain.starknet).gasEstimate.data *
          digitsToNat (gasFallback SupportedChain.starknet).gasPrice.data :=
  c2_fallback _ _ _ ⟨1000000000000000000, by decide⟩
    (Or.inl ⟨rfl, Or.inl (by decide)⟩)

/-- C3 (counterexample).  The claim asserts
`estimatedCost = gasEstimate * gasPrice` for live estimates on both chain
families.  On the Starknet path the three fields are copied independently
from the fee-estimation response, so a response with consumed gas 2, gas
price 3 and overall fee 7 yields a live estimate violating the identity. -/
theorem c3_counterexample :
    estimateSwapGas { paramsBaseFix with amount := "1", chainName := SupportedChain.starknet }
        cfgSnFix envSkewedFee =
      .ok { gasEstimate := "2", gasPrice := "3", estimatedCost := "7" } ∧
      digitsToNat ("7" : String).data ≠
        digitsToNat ("2" : String).data * digitsToNat ("3" : String).data :=
  ⟨by decide, by decide⟩

/-- C3 (amended).  On the account-based (EVM) family, every successful live
estimation satisfies `estimatedCost = gasEstimate * gasPrice` as exact
integers; on the Starknet family the returned `estimatedCost` is the
response's `overall_fee` field, which need not equal the product. -/
theorem c3_amended (params : SwapParams) (chainConfig : ChainConfig) (env : SwapEnv)
    (hcn : params.chainName ≠ SupportedChain.starknet)
    (hamt : ∃ a, toBigInt params.amount = .ok a)
    (hacct : ∃ s, env.evmAccountAddress = .ok s)
    (hroute : ∃ c, env.buildRouteAndCalldata = .ok c)
    (hgas : ∃ g, env.evmEstimateGas = .ok g)
    (hprice : ∃ p, env.getGasPrice = .ok p) :
    ∃ r, estimateSwapGas params chainConfig env = .ok r ∧
      digitsToNat r.estimatedCost.data =
        digitsToNat r.gasEstimate.data * digitsToNat r.gasPrice.data := by
  obtain ⟨a, ha⟩ := hamt
  obtain ⟨s0, hs0⟩ := hacct
  obtain ⟨c0, hc0⟩ := hroute
  obtain ⟨g0, hg0⟩ := hgas
  obtain ⟨p0, hp0⟩ := hprice
  refine ⟨{ gasEstimate := natToStr g0,
            gasPrice := natToStr (estimateEvmFinalGasPrice p0 env.gasPriceMultiplier),
            estimatedCost :=
              natToStr (g0 * estimateEvmFinalGasPrice p0 env.gasPriceMultiplier) },
    ?_, ?_⟩
  · simp only [estimateSwapGas, ha, estimateSwapGasBody, getWalletAddress]
    rw [if_neg hcn, if_neg hcn]
    simp only [hs0, hc0, hg0, hp0]
  · simp only [digitsToNat_natToStr]

/-- C3 (witness).  The amended identity at a concrete live EVM
estimation. -/
theorem c3_amended_witness :
    ∃ r, estimateSwapGas paramsBaseFix cfgEvmFix envAllOk = .ok r ∧
      digitsToNat r.estimatedCost.data =
        digitsToNat r.gasEstimate.data * digitsToNat r.gasPrice.data :=
  c3_amended paramsBaseFix cfgEvmFix envAllOk (by decide)
    ⟨1000000000000000000, by decide⟩ ⟨_, rfl⟩ ⟨_, rfl⟩ ⟨_, rfl⟩ ⟨_, rfl⟩

/-- C6 (confirmed).  On an account-based chain, `executeSwap` submits zero
approval transactions when the input token is the zero-address native-token
sentinel or the current allowance already covers the swap amount; otherwise
it submits exactly one approval for exactly the swap amount and waits for
its confirmation before submitting the swap. -/
theorem c6_approval_policy (params : SwapParams) (chainConfig : ChainConfig) (env : SwapEnv)
    (amount : ℤ) (ra : String)
    (hamt : toBigInt params.amount = .ok amount)
    (hcn : params.chainName ≠ SupportedChain.starknet)
    (hacct : ∃ s, env.evmAccountAddress = .ok s)
    (hra : (findChain env.supportedChains (chainNameStr params.chainName)).bind
      (fun c => c.router_address) = some ra)
    (hra2 : ra ≠ "") :
    ((params.tokenInAddress = zeroAddress ∨
        ∃ al, env.readAllowance = .ok al ∧ amount ≤ al) →
      countApprovals (executeSwap params chainConfig env).2 = 0) ∧
    (∀ (al : ℤ) (h1 c0 hx : String) (p0 g0 : ℕ),
      env.readAllowance = .ok al → al < amount →
      params.tokenInAddress ≠ zeroAddress →
      env.writeApprove = .ok h1 → env.waitApproveReceipt = .ok () →
      env.buildRouteAndCalldata = .ok c0 → env.getGasPrice = .ok p0 →
      env.sendTransaction = .ok hx → env.waitSwapReceiptGasUsed = .ok g0 →
      (executeSwap params chainConfig env).2 =
        [TxEvent.approveSubmitted params.tokenInAddress ra amount,
         TxEvent.approveConfirmed, TxEvent.swapSubmitted ra, TxEvent.swapConfirmed]) := by
  obtain ⟨s0, hs0⟩ := hacct
  obtain ⟨r, hr⟩ := resolveReceiver_ok_evm params chainConfig env s0 hcn hs0
  have hred : executeSwap params chainConfig env =
      executeEvmSwap amount params.tokenInAddress params.tokenOutAddress r
        params.chainName chainConfig env := by
    simp only [executeSwap, hamt, hr]
    rw [if_neg hcn]
  rw [hred]
  constructor
  · intro hskip
    exact executeEvmSwap_zero_approvals amount _ _ r params.chainName chainConfig env ra
      hcn hra hra2 hskip
  · intro al h1 c0 hx p0 g0 hal hlt hfar happr hwait hroute hgp hsend hwaitswap
    exact executeEvmSwap_one_approval amount _ _ r params.chainName chainConfig env ra s0
      al h1 c0 hx p0 g0 hcn hs0 hra hra2 hfar hal hlt happr hwait hroute hgp hsend
      hwaitswap

/-- C6 (witness).  Both branches of the approval policy at concrete
executions: a covering allowance yields zero approvals; a zero allowance
yields exactly one approval for the swap amount, confirmed before the swap
submission. -/
theorem c6_approval_policy_witness :
    countApprovals (executeSwap paramsBaseFix cfgEvmFix envAllOk).2 = 0 ∧
      (executeSwap paramsBaseFix cfgEvmFix { envAllOk with readAllowance := .ok 0 }).2 =
        [TxEvent.approveSubmitted "0xa" "0xRouterBase" 1000000000000000000,
         TxEvent.approveConfirmed, TxEvent.swapSubmitted "0xRouterBase",
         TxEvent.swapConfirmed] :=
  ⟨(c6_approval_policy paramsBaseFix cfgEvmFix envAllOk 1000000000000000000 "0xRouterBase"
      (by decide) (by decide) ⟨_, rfl⟩ (by decide) (by decide)).1
      (Or.inr ⟨99999999999999999999999999, rfl, by decide⟩),
   (c6_approval_policy paramsBaseFix cfgEvmFix { envAllOk with readAllowance := .ok 0 }
      1000000000000000000 "0xRouterBase" (by decide) (by decide) ⟨_, rfl⟩ (by decide)
      (by decide)).2
      0 "0xapprovaltxhash" "0xcalldata" "0xevmtxhash" 20000000000 180000 rfl (by decide)
      (by decide) rfl rfl rfl rfl rfl rfl⟩

end FibrousMcp
